import Mathlib

/-! rgProjekat: the per-frame pipeline and the scene state machine of `src/main.cpp`.

A shallow embedding of the render loop body of `main`, of `key_callback` and of the
transparency sort, followed by the properties proved about them.

Conventions of the embedding.

* `float` values are elements of a linearly ordered field `F` (exact arithmetic, no rounding,
  no NaN).  The C library functions `sqrt`, `cos`, `sin` are passed in a record `Libm F`;
  the theorems which need their analytic properties instantiate `F` by the real numbers and
  the record by `Real.sqrt`, `Real.cos`, `Real.sin`.
* GLM vectors and matrices are records of their components; matrices are column major as
  in GLM (`m[i]` is the column `ci`).
* The render loop body is a function to the list of the OpenGL / shader / GLFW calls that it
  issues, in program order (`GLCall`).
* `std::vector<glm::vec3>` is `List (Vec3 F)`; the fixed C arrays are functions of the index.
* The sign of the shininess under repeated halving is decided by the rounding of binary32,
  which the exact numbers leave out: the two scaling statements of `key_callback` have a
  second embedding on binary32 values (`Binary32`).
-/

/-! ## GLM vectors and matrices -/

/-- The type `glm::vec3`. -/
structure Vec3 (F : Type) where
  x : F
  y : F
  z : F
deriving DecidableEq, Repr

/-- The type `glm::vec4`. -/
structure Vec4 (F : Type) where
  x : F
  y : F
  z : F
  w : F
deriving DecidableEq, Repr

/-- The type `glm::mat3`, column major: `c0`, `c1`, `c2` are `m[0]`, `m[1]`, `m[2]`. -/
structure Mat3 (F : Type) where
  c0 : Vec3 F
  c1 : Vec3 F
  c2 : Vec3 F
deriving DecidableEq, Repr

/-- The type `glm::mat4`, column major: `c0` .. `c3` are `m[0]` .. `m[3]`. -/
structure Mat4 (F : Type) where
  c0 : Vec4 F
  c1 : Vec4 F
  c2 : Vec4 F
  c3 : Vec4 F
deriving DecidableEq, Repr

/-- The functions of the C math library used by the program (`sqrt` through
`glm::distance`, `cos` and `sin` in the point light orbits). -/
structure Libm (F : Type) where
  sqrt : F → F
  cos : F → F
  sin : F → F

namespace glm

variable {F : Type} [LinearOrderedField F]

/-- The constructor `glm::vec3(s)` with one scalar: all three components are `s`. -/
def vec3 (s : F) : Vec3 F := ⟨s, s, s⟩

/-- Component-wise `a - b` on `glm::vec3`. -/
def sub (a b : Vec3 F) : Vec3 F := ⟨a.x - b.x, a.y - b.y, a.z - b.z⟩

/-- The function `glm::dot` on `glm::vec3`. -/
def dot (a b : Vec3 F) : F := a.x * b.x + a.y * b.y + a.z * b.z

/-- The function `glm::length(v)`, which is `sqrt(dot(v, v))`. -/
def length (m : Libm F) (v : Vec3 F) : F := m.sqrt (dot v v)

/-- The function `glm::distance(p0, p1)`, which is `length(p1 - p0)`. -/
def distance (m : Libm F) (p0 p1 : Vec3 F) : F := length m (sub p1 p0)

/-- The function `glm::radians(degrees)`, which is
`degrees * 0.01745329251994329576923690768489`. -/
def radians (degrees : F) : F := degrees * 0.01745329251994329576923690768489

/-- Product `v * s` of a `glm::vec4` by a scalar. -/
def smul4 (v : Vec4 F) (s : F) : Vec4 F := ⟨v.x * s, v.y * s, v.z * s, v.w * s⟩

/-- Component-wise sum of two `glm::vec4`. -/
def add4 (a b : Vec4 F) : Vec4 F := ⟨a.x + b.x, a.y + b.y, a.z + b.z, a.w + b.w⟩

/-- The constructor `glm::mat4(1.0f)`: the identity matrix. -/
def mat4_identity : Mat4 F :=
  ⟨⟨1, 0, 0, 0⟩, ⟨0, 1, 0, 0⟩, ⟨0, 0, 1, 0⟩, ⟨0, 0, 0, 1⟩⟩

/-- The function `glm::translate(m, v)`: the result is `m` with
`Result[3] = m[0] * v[0] + m[1] * v[1] + m[2] * v[2] + m[3]`. -/
def translate (m : Mat4 F) (v : Vec3 F) : Mat4 F :=
  { m with c3 := add4 (add4 (add4 (smul4 m.c0 v.x) (smul4 m.c1 v.y)) (smul4 m.c2 v.z)) m.c3 }

/-- The function `glm::scale(m, v)`: `Result[i] = m[i] * v[i]` for `i < 3`,
`Result[3] = m[3]`. -/
def scale (m : Mat4 F) (v : Vec3 F) : Mat4 F :=
  ⟨smul4 m.c0 v.x, smul4 m.c1 v.y, smul4 m.c2 v.z, m.c3⟩

/-- The conversion `glm::mat3(m)` of a `glm::mat4`: the upper-left 3x3 block. -/
def mat3_of_mat4 (m : Mat4 F) : Mat3 F :=
  ⟨⟨m.c0.x, m.c0.y, m.c0.z⟩, ⟨m.c1.x, m.c1.y, m.c1.z⟩, ⟨m.c2.x, m.c2.y, m.c2.z⟩⟩

/-- The conversion `glm::mat4(m)` of a `glm::mat3`: the block `m` completed by the fourth
row and column of the identity. -/
def mat4_of_mat3 (m : Mat3 F) : Mat4 F :=
  ⟨⟨m.c0.x, m.c0.y, m.c0.z, 0⟩, ⟨m.c1.x, m.c1.y, m.c1.z, 0⟩, ⟨m.c2.x, m.c2.y, m.c2.z, 0⟩,
   ⟨0, 0, 0, 1⟩⟩

end glm

/-! ## `std::sort`

`std::sort` is a library routine.  It is modelled by the insertion sort that the GNU
implementation runs on a range of at most 16 elements (`windowPositions` holds 4):
`__insertion_sort` with `__unguarded_linear_insert`.  The sorted part of the range is a
list; every later element is inserted into it in turn. -/

/-- The loop of `__unguarded_linear_insert`: `val` moves left past every element `next`
with `comp(val, next)`.  The argument is the sorted part read from right to left (the
nearest element first), and so is the result.  The empty case is not reached from
`insertion_step`, whose guard leaves the first element as a stop. -/
def unguarded_linear_insert {α : Type} (comp : α → α → Bool) (val : α) : List α → List α
  | [] => [val]
  | next :: rest =>
    if comp val next then next :: unguarded_linear_insert comp val rest
    else val :: next :: rest

/-- One round of the loop of `__insertion_sort`: when `comp(val, *first)` the sorted
part is shifted right and `val` is stored in front, otherwise `val` is inserted by
`unguarded_linear_insert`. -/
def insertion_step {α : Type} (comp : α → α → Bool) (done : List α) (val : α) : List α :=
  match done with
  | [] => [val]
  | first :: _ =>
    if comp val first then val :: done
    else (unguarded_linear_insert comp val done.reverse).reverse

/-- The call `std::sort(first, last, comp)`: an empty range is left alone, otherwise the
elements after the first are inserted one by one. -/
def std_sort {α : Type} (comp : α → α → Bool) : List α → List α
  | [] => []
  | first :: rest => rest.foldl (insertion_step comp) [first]

/-! ## `std::sort` on longer ranges

On a range of more than 16 elements the GNU implementation first runs `__introsort_loop`
(median-of-three quicksort down to pieces of at most 16 elements) and then the insertion
sort.  It is embedded here to show that on at most 16 elements, the 4 of `windowPositions`
among them, the whole routine is `std_sort`, and that it sorts and permutes a range of any
length.  A range is a list, an iterator an index into it. -/

/-- The call `std::iter_swap(first + i, first + j)`. -/
def iter_swap {α : Type} (l : List α) (i j : Nat) : List α :=
  match l[i]?, l[j]? with
  | some x, some y => (l.set i y).set j x
  | _, _ => l

/-- The function `__move_median_to_first(result, a, b, c, comp)`: the median of the
elements at `a`, `b`, `c` is swapped to `result`. -/
def move_median_to_first {α : Type} (comp : α → α → Bool) (l : List α)
    (result a b c : Nat) : List α :=
  match l[a]?, l[b]?, l[c]? with
  | some x, some y, some z =>
    if comp x y then
      if comp y z then iter_swap l result b
      else if comp x z then iter_swap l result c
      else iter_swap l result a
    else if comp x z then iter_swap l result a
    else if comp y z then iter_swap l result c
    else iter_swap l result b
  | _, _, _ => l

/-- The inner loop `while (comp(first, pivot)) ++first;` of `__unguarded_partition`. -/
def scan_up {α : Type} (comp : α → α → Bool) (l : List α) (pivot : α) : Nat → Nat → Nat
  | 0, first => first
  | fuel + 1, first =>
    match l[first]? with
    | some x => if comp x pivot then scan_up comp l pivot fuel (first + 1) else first
    | none => first

/-- The inner loop `while (comp(pivot, last)) --last;` of `__unguarded_partition`. -/
def scan_down {α : Type} (comp : α → α → Bool) (l : List α) (pivot : α) : Nat → Nat → Nat
  | 0, last => last
  | fuel + 1, last =>
    match l[last]? with
    | some x => if comp pivot x then scan_down comp l pivot fuel (last - 1) else last
    | none => last

/-- The function `__unguarded_partition(first, last, pivot, comp)`: the range after the
swaps and the cut it returns. -/
def unguarded_partition {α : Type} (comp : α → α → Bool) (pivot : α) :
    Nat → List α → Nat → Nat → List α × Nat
  | 0, l, first, _ => (l, first)
  | fuel + 1, l, first, last =>
    let first1 := scan_up comp l pivot l.length first
    let last1 := scan_down comp l pivot l.length (last - 1)
    if first1 < last1 then
      unguarded_partition comp pivot fuel (iter_swap l first1 last1) (first1 + 1) last1
    else (l, first1)

/-- The function `__unguarded_partition_pivot(first, last, comp)`. -/
def unguarded_partition_pivot {α : Type} (comp : α → α → Bool) (l : List α)
    (first last : Nat) : List α × Nat :=
  let mid := first + (last - first) / 2
  let l1 := move_median_to_first comp l first (first + 1) mid (last - 1)
  match l1[first]? with
  | some pivot => unguarded_partition comp pivot l1.length l1 (first + 1) last
  | none => (l1, first + 1)

/-- The function `__introsort_loop(first, last, depth_limit, comp)`, by recursion on the
depth limit, which every round of its loop decrements.  `partial_sort` is the heap sort
that takes over when the depth limit is used up; it is not embedded. -/
def introsort_loop {α : Type} (partial_sort : List α → List α) (comp : α → α → Bool) :
    Nat → List α → Nat → Nat → List α
  | 0, l, first, last =>
    if last - first > 16 then
      l.take first ++ partial_sort ((l.drop first).take (last - first)) ++ l.drop last
    else l
  | depth_limit + 1, l, first, last =>
    if last - first > 16 then
      let p := unguarded_partition_pivot comp l first last
      let l2 := introsort_loop partial_sort comp depth_limit p.1 p.2 last
      introsort_loop partial_sort comp depth_limit l2 first p.2
    else l

/-- The function `__final_insertion_sort(first, last, comp)`: a range of more than 16
elements gets `__insertion_sort` on its first 16 and `__unguarded_insertion_sort` on the
rest, a shorter one gets `__insertion_sort`. -/
def final_insertion_sort {α : Type} (comp : α → α → Bool) (l : List α) : List α :=
  if l.length > 16 then
    (l.drop 16).foldl
      (fun done val => (unguarded_linear_insert comp val done.reverse).reverse)
      (std_sort comp (l.take 16))
  else std_sort comp l

/-- The loop of `std::__lg`, with fuel. -/
def lg_aux : Nat → Nat → Nat
  | 0, _ => 0
  | fuel + 1, n => if n ≤ 1 then 0 else lg_aux fuel (n / 2) + 1

/-- The function `std::__lg(n)`: the floor of the binary logarithm of `n`. -/
def lg (n : Nat) : Nat := lg_aux n n

/-- The whole of `std::sort(first, last, comp)` in the GNU implementation: on a
non-empty range `__introsort_loop` with depth limit `2 * __lg(last - first)`, then
`__final_insertion_sort`. -/
def std_sort_gnu {α : Type} (partial_sort : List α → List α) (comp : α → α → Bool)
    (l : List α) : List α :=
  match l with
  | [] => []
  | _ :: _ =>
    final_insertion_sort comp
      (introsort_loop partial_sort comp (lg l.length * 2) l 0 l.length)

/-! ## The scene state (`main.cpp`, lines 40-93) -/

/-- The record `DirLight`. -/
structure DirLight (F : Type) where
  direction : Vec3 F
  ambient : Vec3 F
  diffuse : Vec3 F
  specular : Vec3 F

/-- The record `PointLight`. -/
structure PointLight (F : Type) where
  position : Vec3 F
  ambient : Vec3 F
  diffuse : Vec3 F
  specular : Vec3 F
  constant : F
  linear : F
  quadratic : F

/-- The record `SpotLight`. -/
structure SpotLight (F : Type) where
  position : Vec3 F
  direction : Vec3 F
  cutOff : F
  outerCutOff : F
  constant : F
  linear : F
  quadratic : F
  ambient : Vec3 F
  diffuse : Vec3 F
  specular : Vec3 F

/-- Modelled from the spec: the class `Camera` of `learnopengl/camera.h` is not among the
sources.  The data model of the spec gives it a position, front / up / right vectors, yaw,
pitch and zoom; `main.cpp` reads `Position`, `Front` and `Zoom`. -/
structure Camera (F : Type) where
  Position : Vec3 F
  Front : Vec3 F
  Up : Vec3 F
  Right : Vec3 F
  Yaw : F
  Pitch : F
  Zoom : F

/-- The record `ProgramState`; `pointLights` is the array `PointLight pointLights[4]`. -/
structure ProgramState (F : Type) where
  clearColor : Vec3 F
  camera : Camera F
  ImGuiEnabled : Bool
  CameraMouseMovementUpdateEnabled : Bool
  CameraScrollingEnabled : Bool
  KeyboardMovementEnabled : Bool
  skyBoxEnabled : Bool
  dragonPosition : Vec3 F
  dragonScale : F
  dirLight : DirLight F
  pointLights : Fin 4 → PointLight F
  spotLight : SpotLight F
  materialShininess : F
  gamma : Bool

/-- The functions of GLM and of the camera class that the frame calls and that are not
embedded: `glm::rotate`, `glm::perspective` and `Camera::GetViewMatrix`. -/
structure External (F : Type) where
  rotate : Mat4 F → F → Vec3 F → Mat4 F
  perspective : F → F → F → F → Mat4 F
  GetViewMatrix : Camera F → Mat4 F

section State

variable {F : Type} [LinearOrderedField F]

/-- The state built by `new ProgramState` (line 130): the default member initialisers of
lines 75-88.  The camera is made by the constructor of the camera class from
`glm::vec3(0.0f, 0.0f, 3.0f)`, and the three light records have no initialiser: these four
members are arguments. -/
def ProgramState.initial (camera : Camera F) (dirLight : DirLight F)
    (pointLights : Fin 4 → PointLight F) (spotLight : SpotLight F) : ProgramState F :=
  { clearColor := ⟨0.1, 0.1, 0.1⟩
    camera := camera
    ImGuiEnabled := false
    CameraMouseMovementUpdateEnabled := true
    CameraScrollingEnabled := true
    KeyboardMovementEnabled := true
    skyBoxEnabled := true
    dragonPosition := ⟨4.0, 4.0, -10.0⟩
    dragonScale := 0.2
    dirLight := dirLight
    pointLights := pointLights
    spotLight := spotLight
    materialShininess := 16.0
    gamma := false }

/-- The array `pointLightPositions` (lines 213-218), by index. -/
def pointLightPositions : Fin 4 → Vec3 F
  | 0 => ⟨0.7, 0.2, 2.0⟩
  | 1 => ⟨1.5, -1.3, -2.0⟩
  | 2 => ⟨-2.0, 2.0, -4.0⟩
  | 3 => ⟨1.0, 1.0, -3.0⟩

/-- The set-up of the light records in `main` (lines 278-306).  `cutOff` and
`outerCutOff` are `glm::cos(glm::radians(12.5f))` and `glm::cos(glm::radians(15.0f))`.
The members `position` and `direction` of the spot light are not assigned. -/
def setupLights (m : Libm F) (st : ProgramState F) : ProgramState F :=
  { st with
    dirLight := ⟨⟨-0.2, -1.0, -0.3⟩, ⟨0.05, 0.05, 0.05⟩, ⟨0.4, 0.4, 0.4⟩, ⟨0.5, 0.5, 0.5⟩⟩
    pointLights := fun i =>
      { position := pointLightPositions i
        ambient := ⟨0.05, 0.05, 0.05⟩
        diffuse := ⟨0.8, 0.8, 0.8⟩
        specular := ⟨1.0, 1.0, 1.0⟩
        constant := 1.0
        linear := 0.09
        quadratic := 0.032 }
    spotLight :=
      { st.spotLight with
        ambient := ⟨0.0, 0.0, 0.0⟩
        diffuse := ⟨1.0, 1.0, 1.0⟩
        specular := ⟨1.0, 1.0, 1.0⟩
        constant := 1.0
        linear := 0.09
        quadratic := 0.032
        cutOff := m.cos (glm.radians 12.5)
        outerCutOff := m.cos (glm.radians 15.0) } }

/-- The state at the first frame: `new ProgramState` followed by the set-up of the lights.
The camera is as the constructor of the camera class leaves it at `(0, 0, 3)` (front
`(0, 0, -1)`, up `(0, 1, 0)`, right `(1, 0, 0)`, yaw `-90`, pitch `0`, zoom `45`); the
members that the program never assigns (position and direction of the spot light) are 0. -/
def sceneAtStart (m : Libm F) : ProgramState F :=
  setupLights m
    (ProgramState.initial
      ⟨⟨0.0, 0.0, 3.0⟩, ⟨0.0, 0.0, -1.0⟩, ⟨0.0, 1.0, 0.0⟩, ⟨1.0, 0.0, 0.0⟩, -90.0, 0.0, 45.0⟩
      ⟨⟨0, 0, 0⟩, ⟨0, 0, 0⟩, ⟨0, 0, 0⟩, ⟨0, 0, 0⟩⟩
      (fun _ => ⟨⟨0, 0, 0⟩, ⟨0, 0, 0⟩, ⟨0, 0, 0⟩, ⟨0, 0, 0⟩, 0, 0, 0⟩)
      ⟨⟨0, 0, 0⟩, ⟨0, 0, 0⟩, 0, 0, 0, 0, 0, ⟨0, 0, 0⟩, ⟨0, 0, 0⟩, ⟨0, 0, 0⟩⟩)

/-- The array `cubePositions` (lines 200-211), by index. -/
def cubePositions : Nat → Vec3 F
  | 0 => ⟨0.0, 0.0, 0.0⟩
  | 1 => ⟨2.0, 5.0, -15.0⟩
  | 2 => ⟨-1.5, -2.2, -2.5⟩
  | 3 => ⟨-3.8, -2.0, -12.3⟩
  | 4 => ⟨2.4, -0.4, -3.5⟩
  | 5 => ⟨-1.7, 3.0, -7.5⟩
  | 6 => ⟨1.3, -2.0, -2.5⟩
  | 7 => ⟨1.5, 2.0, -2.5⟩
  | 8 => ⟨1.5, 0.2, -1.5⟩
  | _ => ⟨-1.3, 1.0, -1.5⟩

/-- The array `rockPositions` (lines 220-225), by index. -/
def rockPositions : Nat → Vec3 F
  | 0 => ⟨3.0, 4.1, -5.0⟩
  | 1 => ⟨4.5, -2.5, -8.3⟩
  | 2 => ⟨-4.4, 5.6, -9.0⟩
  | _ => ⟨-3.0, -3.2, -6.4⟩

/-- The initial value of the vector `windowPositions` (lines 363-368). -/
def windowPositions : List (Vec3 F) :=
  [⟨3.0, 4.1, -3.0⟩, ⟨3.0, 4.1, -7.0⟩, ⟨-3.0, -3.2, -9.1⟩, ⟨1.0, 1.0, -10.9⟩]

end State

/-! ## The calls issued by a frame -/

/-- The five shader programs of `main` (lines 149-153). -/
inductive Shader where
  | lightingShader
  | lightCubeShader
  | targetShader
  | windowShader
  | skyboxShader
deriving DecidableEq, Repr

/-- The texture handles bound in the render loop. -/
inductive Texture where
  | diffuseMap
  | diffuseMapGammaCorrected
  | specularMap
  | targetTexture
  | targetTexture1
  | windowTexture
  | cubemapTexture
deriving DecidableEq, Repr

/-- The vertex array objects bound in the render loop; `zero` is `glBindVertexArray(0)`. -/
inductive VertexArray where
  | cubeVAO
  | lightCubeVAO
  | VAO1
  | windowVAO
  | skyboxVAO
  | zero
deriving DecidableEq, Repr

/-- The imported models drawn with `Model::Draw`. -/
inductive Mesh where
  | rockModel
  | bowModel
  | dragonModel
deriving DecidableEq, Repr

/-- The two arguments given to `glDepthFunc`. -/
inductive DepthFunc where
  | GL_LESS
  | GL_LEQUAL
deriving DecidableEq, Repr

/-- The two texture targets given to `glBindTexture`. -/
inductive TextureTarget where
  | GL_TEXTURE_2D
  | GL_TEXTURE_CUBE_MAP
deriving DecidableEq, Repr

/-- One call of the render loop body.  `shader_use s` is `s.use()`, `setVec3 s name v` is
`s.setVec3(name, v)` and likewise for `setFloat`, `setInt`, `setMat4`; `Draw mesh s` is
`mesh.Draw(s)`; `glClear` is always called with the colour and depth bits, `glDrawArrays`
and `glDrawElements` always with `GL_TRIANGLES`; `glActiveTexture n` stands for
`glActiveTexture(GL_TEXTURE0 + n)`. -/
inductive GLCall (F : Type) where
  | glClearColor (r g b a : F)
  | glClear
  | shader_use (s : Shader)
  | setVec3 (s : Shader) (name : String) (v : Vec3 F)
  | setFloat (s : Shader) (name : String) (v : F)
  | setInt (s : Shader) (name : String) (v : Int)
  | setMat4 (s : Shader) (name : String) (v : Mat4 F)
  | glActiveTexture (n : Nat)
  | glBindTexture (target : TextureTarget) (t : Texture)
  | glBindVertexArray (v : VertexArray)
  | glDrawArrays (first count : Nat)
  | glDrawElements (count : Nat)
  | Draw (mesh : Mesh) (s : Shader)
  | glDepthFunc (f : DepthFunc)
  | DrawImGui
  | glfwSwapBuffers
  | glfwPollEvents
deriving DecidableEq, Repr

section Frame

variable {F : Type} [LinearOrderedField F]

open Shader Texture VertexArray Mesh GLCall

/-- The sort of `windowPositions` at the head of the render loop (lines 468-474): the
comparator computes `d1`, `d2` with `glm::distance` to the captured camera position and
returns `d1 > d2`. -/
def sortWindows (m : Libm F) (cameraPosition : Vec3 F) (windowPositions : List (Vec3 F)) :
    List (Vec3 F) :=
  std_sort (fun a b =>
    let d1 := glm.distance m a cameraPosition
    let d2 := glm.distance m b cameraPosition
    decide (d1 > d2)) windowPositions

/-- The array `dynamicPointLightsPositions` as assigned on lines 492, 501, 510, 519;
`currentFrame` is the time read at the head of the frame. -/
def dynamicPointLightsPositions (m : Libm F) (st : ProgramState F) (currentFrame : F) :
    Fin 4 → Vec3 F
  | 0 => ⟨(st.pointLights 0).position.x * m.cos currentFrame, (st.pointLights 0).position.y,
          (st.pointLights 0).position.z * m.sin currentFrame⟩
  | 1 => ⟨(st.pointLights 1).position.x * m.cos currentFrame, (st.pointLights 1).position.y,
          (st.pointLights 1).position.z * m.sin currentFrame⟩
  | 2 => ⟨(st.pointLights 2).position.x, (st.pointLights 2).position.y * m.cos currentFrame,
          (st.pointLights 2).position.z * m.sin currentFrame⟩
  | 3 => ⟨(st.pointLights 3).position.x, (st.pointLights 3).position.y * m.cos currentFrame,
          (st.pointLights 3).position.z * m.sin currentFrame⟩

/-- Lines 477-478: the clear. -/
def clearPass (st : ProgramState F) : List (GLCall F) :=
  [glClearColor st.clearColor.x st.clearColor.y st.clearColor.z 1.0, glClear]

/-- Lines 480-487: the lit shader, the view position, the shininess and the directional
light. -/
def dirLightUniforms (st : ProgramState F) : List (GLCall F) :=
  [shader_use lightingShader,
   setVec3 lightingShader "viewPos" st.camera.Position,
   setFloat lightingShader "material.shininess" st.materialShininess,
   setVec3 lightingShader "dirLight.direction" st.dirLight.direction,
   setVec3 lightingShader "dirLight.ambient" st.dirLight.ambient,
   setVec3 lightingShader "dirLight.diffuse" st.dirLight.diffuse,
   setVec3 lightingShader "dirLight.specular" st.dirLight.specular]

/-- Lines 489-526: the four point lights.  The position uniform is the entry of
`dynamicPointLightsPositions`, the other six are copied from the state. -/
def pointLightUniforms (m : Libm F) (st : ProgramState F) (currentFrame : F) :
    List (GLCall F) :=
  [setVec3 lightingShader "pointLights[0].position"
     (dynamicPointLightsPositions m st currentFrame 0),
   setVec3 lightingShader "pointLights[0].ambient" (st.pointLights 0).ambient,
   setVec3 lightingShader "pointLights[0].diffuse" (st.pointLights 0).diffuse,
   setVec3 lightingShader "pointLights[0].specular" (st.pointLights 0).specular,
   setFloat lightingShader "pointLights[0].constant" (st.pointLights 0).constant,
   setFloat lightingShader "pointLights[0].linear" (st.pointLights 0).linear,
   setFloat lightingShader "pointLights[0].quadratic" (st.pointLights 0).quadratic,
   setVec3 lightingShader "pointLights[1].position"
     (dynamicPointLightsPositions m st currentFrame 1),
   setVec3 lightingShader "pointLights[1].ambient" (st.pointLights 1).ambient,
   setVec3 lightingShader "pointLights[1].diffuse" (st.pointLights 1).diffuse,
   setVec3 lightingShader "pointLights[1].specular" (st.pointLights 1).specular,
   setFloat lightingShader "pointLights[1].constant" (st.pointLights 1).constant,
   setFloat lightingShader "pointLights[1].linear" (st.pointLights 1).linear,
   setFloat lightingShader "pointLights[1].quadratic" (st.pointLights 1).quadratic,
   setVec3 lightingShader "pointLights[2].position"
     (dynamicPointLightsPositions m st currentFrame 2),
   setVec3 lightingShader "pointLights[2].ambient" (st.pointLights 2).ambient,
   setVec3 lightingShader "pointLights[2].diffuse" (st.pointLights 2).diffuse,
   setVec3 lightingShader "pointLights[2].specular" (st.pointLights 2).specular,
   setFloat lightingShader "pointLights[2].constant" (st.pointLights 2).constant,
   setFloat lightingShader "pointLights[2].linear" (st.pointLights 2).linear,
   setFloat lightingShader "pointLights[2].quadratic" (st.pointLights 2).quadratic,
   setVec3 lightingShader "pointLights[3].position"
     (dynamicPointLightsPositions m st currentFrame 3),
   setVec3 lightingShader "pointLights[3].ambient" (st.pointLights 3).ambient,
   setVec3 lightingShader "pointLights[3].diffuse" (st.pointLights 3).diffuse,
   setVec3 lightingShader "pointLights[3].specular" (st.pointLights 3).specular,
   setFloat lightingShader "pointLights[3].constant" (st.pointLights 3).constant,
   setFloat lightingShader "pointLights[3].linear" (st.pointLights 3).linear,
   setFloat lightingShader "pointLights[3].quadratic" (st.pointLights 3).quadratic]

/-- Lines 527-537: the spot light.  Position and direction are read from the camera, the
other eight uniforms from the record `spotLight`. -/
def spotLightUniforms (st : ProgramState F) : List (GLCall F) :=
  [setVec3 lightingShader "spotLight.position" st.camera.Position,
   setVec3 lightingShader "spotLight.direction" st.camera.Front,
   setVec3 lightingShader "spotLight.ambient" st.spotLight.ambient,
   setVec3 lightingShader "spotLight.diffuse" st.spotLight.diffuse,
   setVec3 lightingShader "spotLight.specular" st.spotLight.specular,
   setFloat lightingShader "spotLight.constant" st.spotLight.constant,
   setFloat lightingShader "spotLight.linear" st.spotLight.linear,
   setFloat lightingShader "spotLight.quadratic" st.spotLight.quadratic,
   setFloat lightingShader "spotLight.cutOff" st.spotLight.cutOff,
   setFloat lightingShader "spotLight.outerCutOff" st.spotLight.outerCutOff]

/-- Line 539: the projection matrix, with `SCR_WIDTH = 800` and `SCR_HEIGHT = 600`. -/
def projection (ext : External F) (st : ProgramState F) : Mat4 F :=
  ext.perspective (glm.radians st.camera.Zoom) (800 / 600) 0.1 100.0

/-- Line 540: the view matrix of the frame. -/
def view (ext : External F) (st : ProgramState F) : Mat4 F :=
  ext.GetViewMatrix st.camera

/-- Lines 541-555: the matrices, the texture pair chosen by `gamma` and the `gamma`
uniform of the lit shader. -/
def litSetup (ext : External F) (st : ProgramState F) : List (GLCall F) :=
  [setMat4 lightingShader "projection" (projection ext st),
   setMat4 lightingShader "view" (view ext st),
   setMat4 lightingShader "model" glm.mat4_identity,
   glActiveTexture 0,
   glBindTexture TextureTarget.GL_TEXTURE_2D
     (if st.gamma then diffuseMapGammaCorrected else diffuseMap),
   glActiveTexture 1,
   glBindTexture TextureTarget.GL_TEXTURE_2D specularMap,
   setInt lightingShader "gamma" (if st.gamma then 1 else 0)]

/-- The rotation angle of container `i` (lines 563-569); `clock` is the value of the
call of `glfwGetTime()` made in that round of the loop. -/
def cubeAngle (m : Libm F) (i : Nat) (clock : F) : F :=
  let angle : F := 20.0 * (i : F)
  let angle : F := if i % 3 = 1 then (1 + m.sin clock) / 2 * 30.0 else angle
  let angle : F := if i % 3 = 2 then (1 + m.cos clock) / 2 * 30.0 else angle
  angle

/-- Lines 557-575: the ten containers. -/
def cubePass (m : Libm F) (ext : External F) (glfwGetTime : Nat → F) : List (GLCall F) :=
  glBindVertexArray cubeVAO ::
    (List.range 10).flatMap fun i =>
      [setMat4 lightingShader "model"
         (ext.rotate (glm.translate glm.mat4_identity (cubePositions i))
           (glm.radians (cubeAngle m i (glfwGetTime i))) ⟨1.0, 0.3, 0.5⟩),
       glDrawArrays 0 36]

/-- Lines 577-599: the four rocks, the bow held by the camera and the dragon.  The
angle of the bow is `(float)(M_PI/2.0)`. -/
def meshPass (ext : External F) (st : ProgramState F) : List (GLCall F) :=
  ((List.range 4).flatMap fun i =>
      [setMat4 lightingShader "model"
         (glm.scale (glm.translate glm.mat4_identity (rockPositions i)) (glm.vec3 1.1)),
       Draw rockModel lightingShader]) ++
  [setMat4 lightingShader "model"
     (glm.scale
       (ext.rotate
         (glm.translate glm.mat4_identity
           ⟨st.camera.Position.x - 0.15, st.camera.Position.y, st.camera.Position.z - 1⟩)
         (3.14159265358979323846 / 2.0) ⟨1.0, 0.0, 0.0⟩)
       (glm.vec3 0.2)),
   Draw bowModel lightingShader,
   setMat4 lightingShader "model"
     (glm.scale (glm.translate glm.mat4_identity st.dragonPosition) (glm.vec3 st.dragonScale)),
   Draw dragonModel lightingShader]

/-- Lines 601-613: one small cube per point light, translated to the entry of
`dynamicPointLightsPositions` and scaled by `0.2`. -/
def lightCubePass (m : Libm F) (ext : External F) (st : ProgramState F) (currentFrame : F) :
    List (GLCall F) :=
  [shader_use lightCubeShader,
   setMat4 lightCubeShader "projection" (projection ext st),
   setMat4 lightCubeShader "view" (view ext st),
   glBindVertexArray lightCubeVAO] ++
  ([0, 1, 2, 3] : List (Fin 4)).flatMap fun i =>
    [setMat4 lightCubeShader "model"
       (glm.scale
         (glm.translate glm.mat4_identity (dynamicPointLightsPositions m st currentFrame i))
         (glm.vec3 0.2)),
     glDrawArrays 0 36]

/-- Lines 614-632: the two target quads. -/
def targetPass (ext : External F) (st : ProgramState F) : List (GLCall F) :=
  [shader_use targetShader,
   setMat4 targetShader "projection" (projection ext st),
   setMat4 targetShader "view" (view ext st),
   glActiveTexture 0,
   glBindTexture TextureTarget.GL_TEXTURE_2D targetTexture,
   glActiveTexture 1,
   glBindTexture TextureTarget.GL_TEXTURE_2D targetTexture1,
   glBindVertexArray VAO1] ++
  (List.range 2).flatMap fun i =>
    [setMat4 targetShader "model"
       (glm.scale (glm.translate glm.mat4_identity ⟨(i : F) * 5, 2.0, -18.0⟩) (glm.vec3 1.5)),
     glDrawElements 6]

/-- Lines 634-648: the windows, drawn in the order of the vector. -/
def windowPass (ext : External F) (st : ProgramState F) (windowPositions : List (Vec3 F)) :
    List (GLCall F) :=
  [shader_use windowShader,
   setMat4 windowShader "projection" (projection ext st),
   setMat4 windowShader "view" (view ext st),
   glActiveTexture 0,
   glBindTexture TextureTarget.GL_TEXTURE_2D windowTexture,
   glBindVertexArray windowVAO] ++
  windowPositions.flatMap fun w =>
    [setMat4 windowShader "model"
       (glm.scale (glm.translate glm.mat4_identity w) (glm.vec3 3.0)),
     glDrawArrays 0 6]

/-- Lines 650-663: the skybox, drawn when `skyBoxEnabled`, between `glDepthFunc(GL_LEQUAL)`
and `glDepthFunc(GL_LESS)`, with the view matrix `glm::mat4(glm::mat3(view))`. -/
def skyboxPass (ext : External F) (st : ProgramState F) : List (GLCall F) :=
  if st.skyBoxEnabled then
    [glDepthFunc DepthFunc.GL_LEQUAL,
     shader_use skyboxShader,
     setMat4 skyboxShader "view" (glm.mat4_of_mat3 (glm.mat3_of_mat4 (view ext st))),
     setMat4 skyboxShader "projection" (projection ext st),
     glBindVertexArray skyboxVAO,
     glActiveTexture 0,
     glBindTexture TextureTarget.GL_TEXTURE_CUBE_MAP cubemapTexture,
     glDrawArrays 0 36,
     glBindVertexArray zero,
     glDepthFunc DepthFunc.GL_LESS]
  else []

/-- Lines 665-666: the overlay, drawn when `ImGuiEnabled`.  The body of `DrawImGui` is one
call here; its three check boxes write the camera toggles of the state, which no call of
the frame reads. -/
def overlayPass (st : ProgramState F) : List (GLCall F) :=
  if st.ImGuiEnabled then [DrawImGui] else []

/-- The render loop body from the sort on (lines 468-671), after the time has been read
into `currentFrame` and `processInput` has moved the camera: the new value of
`windowPositions` and the calls issued, in program order.  `glfwGetTime i` is the time read
in round `i` of the container loop. -/
def renderFrame (m : Libm F) (ext : External F) (st : ProgramState F) (currentFrame : F)
    (glfwGetTime : Nat → F) (windowPositions : List (Vec3 F)) :
    List (Vec3 F) × List (GLCall F) :=
  let sorted := sortWindows m st.camera.Position windowPositions
  (sorted,
   clearPass st ++ dirLightUniforms st ++ pointLightUniforms m st currentFrame ++
   spotLightUniforms st ++ litSetup ext st ++ cubePass m ext glfwGetTime ++ meshPass ext st ++
   lightCubePass m ext st currentFrame ++ targetPass ext st ++ windowPass ext st sorted ++
   skyboxPass ext st ++ overlayPass st ++ [glfwSwapBuffers, glfwPollEvents])

/-- The vector `windowPositions` after a run of frames, one camera position per frame:
every frame sorts the vector left by the frame before. -/
def windowsAfterFrames (m : Libm F) (windowPositions : List (Vec3 F))
    (cameraPositions : List (Vec3 F)) : List (Vec3 F) :=
  cameraPositions.foldl (fun ws cam => sortWindows m cam ws) windowPositions

/-! ## Reading a list of calls -/

/-- The values given to the `vec3` uniform `name` of shader `s`, in order. -/
def vec3Writes (s : Shader) (name : String) : List (GLCall F) → List (Vec3 F)
  | [] => []
  | setVec3 s1 n v :: rest =>
    if s1 = s ∧ n = name then v :: vec3Writes s name rest else vec3Writes s name rest
  | _ :: rest => vec3Writes s name rest

/-- Whether a call makes shader `s` the one that draws: `s.use()` or `mesh.Draw(s)`. -/
def selects (s : Shader) : GLCall F → Bool
  | shader_use t => t = s
  | Draw _ t => t = s
  | _ => false

/-- The registers of the GL machine followed by `drawLog`: the program in use and, per
shader, the last matrix given to its uniform `model`. -/
structure DrawState (F : Type) where
  current : Option Shader
  model : Shader → Option (Mat4 F)

/-- One draw call as it reaches the GPU: the program in use and the value of its uniform
`model` at that moment. -/
structure DrawRecord (F : Type) where
  shader : Option Shader
  model : Option (Mat4 F)

/-- The draw calls (`glDrawArrays`, `glDrawElements`, `Model::Draw`) of a list of calls,
each with the program in use and its current `model` matrix. -/
def drawLog (σ : DrawState F) : List (GLCall F) → List (DrawRecord F)
  | [] => []
  | shader_use s :: rest => drawLog { σ with current := some s } rest
  | setMat4 s n v :: rest =>
    drawLog (if n = "model" then
      { σ with model := fun t => if t = s then some v else σ.model t } else σ) rest
  | glDrawArrays _ _ :: rest => ⟨σ.current, σ.current.bind σ.model⟩ :: drawLog σ rest
  | glDrawElements _ :: rest => ⟨σ.current, σ.current.bind σ.model⟩ :: drawLog σ rest
  | Draw _ s :: rest => ⟨some s, σ.model s⟩ :: drawLog σ rest
  | _ :: rest => drawLog σ rest

end Frame

/-! ## `key_callback` (lines 757-805) -/

/-- The macro `GLFW_RELEASE` of `GLFW/glfw3.h`. -/
@[reducible] def GLFW_RELEASE : Int := 0
/-- The macro `GLFW_PRESS` of `GLFW/glfw3.h`. -/
@[reducible] def GLFW_PRESS : Int := 1
/-- The macro `GLFW_REPEAT` of `GLFW/glfw3.h`. -/
@[reducible] def GLFW_REPEAT : Int := 2
/-- The macro `GLFW_KEY_SPACE` of `GLFW/glfw3.h`. -/
@[reducible] def GLFW_KEY_SPACE : Int := 32
/-- The macro `GLFW_KEY_B` of `GLFW/glfw3.h`. -/
@[reducible] def GLFW_KEY_B : Int := 66
/-- The macro `GLFW_KEY_G` of `GLFW/glfw3.h`. -/
@[reducible] def GLFW_KEY_G : Int := 71
/-- The macro `GLFW_KEY_P` of `GLFW/glfw3.h`. -/
@[reducible] def GLFW_KEY_P : Int := 80
/-- The macro `GLFW_KEY_R` of `GLFW/glfw3.h`. -/
@[reducible] def GLFW_KEY_R : Int := 82
/-- The macro `GLFW_KEY_DOWN` of `GLFW/glfw3.h`. -/
@[reducible] def GLFW_KEY_DOWN : Int := 264
/-- The macro `GLFW_KEY_UP` of `GLFW/glfw3.h`. -/
@[reducible] def GLFW_KEY_UP : Int := 265
/-- The macro `GLFW_KEY_F1` of `GLFW/glfw3.h`. -/
@[reducible] def GLFW_KEY_F1 : Int := 290
/-- The macro `GLFW_KEY_F2` of `GLFW/glfw3.h`. -/
@[reducible] def GLFW_KEY_F2 : Int := 291

section Keys

variable {F : Type} [LinearOrderedField F]

/-- The function `key_callback` as a transition of the state behind the global pointer
`programState`: nine `if` statements in sequence, each testing `key` and `action`.  The
window argument is not used; the messages written to `std::cerr` are left out. -/
def key_callback (st : ProgramState F) (key _scancode action _mods : Int) : ProgramState F :=
  let st := if key = GLFW_KEY_R ∧ action = GLFW_RELEASE then
    { st with clearColor := ⟨1.0, 0.0, 0.0⟩ } else st
  let st := if key = GLFW_KEY_G ∧ action = GLFW_RELEASE then
    { st with clearColor := ⟨0.0, 1.0, 0.0⟩ } else st
  let st := if key = GLFW_KEY_B ∧ action = GLFW_RELEASE then
    { st with clearColor := ⟨0.0, 0.0, 1.0⟩ } else st
  let st := if key = GLFW_KEY_P ∧ action = GLFW_RELEASE then
    { st with clearColor := ⟨0.1, 0.1, 0.1⟩ } else st
  let st := if key = GLFW_KEY_UP ∧ action = GLFW_PRESS then
    { st with materialShininess := st.materialShininess * 2.0 } else st
  let st := if key = GLFW_KEY_DOWN ∧ action = GLFW_PRESS then
    { st with materialShininess := st.materialShininess / 2.0 } else st
  let st := if key = GLFW_KEY_F1 ∧ action = GLFW_PRESS then
    { st with ImGuiEnabled := !st.ImGuiEnabled } else st
  let st := if key = GLFW_KEY_F2 ∧ action = GLFW_PRESS then
    { st with skyBoxEnabled := !st.skyBoxEnabled } else st
  let st := if key = GLFW_KEY_SPACE ∧ action = GLFW_PRESS then
    { st with gamma := !st.gamma } else st
  st

end Keys

section KeyEvents

variable {F : Type} [LinearOrderedField F]

/-- One key event as GLFW hands it to `key_callback`: the four integer arguments after
the window. -/
structure KeyEvent where
  key : Int
  scancode : Int
  action : Int
  mods : Int
deriving DecidableEq, Repr

/-- The comparator given to `std::sort` on lines 469-473, a lambda that captures the
camera position: `d1 > d2` for the distances of its two arguments to the camera. -/
def windowComparator (m : Libm F) (cameraPosition : Vec3 F) (a b : Vec3 F) : Bool :=
  let d1 := glm.distance m a cameraPosition
  let d2 := glm.distance m b cameraPosition
  decide (d1 > d2)

end KeyEvents

section LongLists

variable {F : Type} [LinearOrderedField F]

/-- The sort of lines 468-474 carried out by the whole GNU routine, for vectors of any
length; `partial_sort` is its heap sort fallback. -/
def sortWindowsGnu (partial_sort : List (Vec3 F) → List (Vec3 F)) (m : Libm F)
    (cameraPosition : Vec3 F) (windowPositions : List (Vec3 F)) : List (Vec3 F) :=
  std_sort_gnu partial_sort (windowComparator m cameraPosition) windowPositions

/-- Stability as the spec words it (section 4.2), for a sort by the key `key`: the
elements with any one key value `d` stand in the output in the order they have in the
input. -/
def StableFor {α β : Type} [DecidableEq β] (key : α → β) (input output : List α) : Prop :=
  ∀ d : β, output.filter (fun a => decide (key a = d)) =
    input.filter (fun a => decide (key a = d))

end LongLists

/-! ## The shininess in binary32

The embedding above computes with exact numbers.  Whether repeated halving reaches 0 is
decided by the rounding of the `float` format, so the two statements of `key_callback`
that scale `materialShininess` are embedded a second time on IEEE 754 binary32 values, and
the statements about the sign of the shininess are made there.  Doubling and halving keep
the sign, so the non-negative values are enough. -/

/-- The non-negative values of IEEE 754 binary32.  Every finite binary32 number is an
integer multiple of `2^-149`, the least positive subnormal: `finite n` is `n · 2^-149`;
`inf` is `+∞`. -/
inductive Binary32 where
  | finite (n : Nat)
  | inf
deriving DecidableEq, Repr

namespace Binary32

/-- The largest finite binary32 number, `(2^24 - 1) · 2^104`, in units of `2^-149`. -/
def maxFinite : Nat := (2 ^ 24 - 1) * 2 ^ 253

/-- The literal `16.0f`, which is `2^4 = 2^153 · 2^-149`. -/
def sixteen : Binary32 := finite (2 ^ 153)

/-- Whether a value is strictly positive: a finite number other than 0, or `+∞`. -/
def positive : Binary32 → Bool
  | finite n => decide (0 < n)
  | inf => true

/-- The product `x * 2.0f`: doubling is exact as long as the result is finite, and a
result above the largest finite number rounds to `+∞`. -/
def mul2 : Binary32 → Binary32
  | finite n => if 2 * n ≤ maxFinite then finite (2 * n) else inf
  | inf => inf

/-- The quotient `x / 2.0f`, rounded to nearest, ties to even: exact when `n` is even;
an odd `n` lies on the subnormal grid, where `n / 2` falls half way between two
neighbours and goes to the even one. -/
def div2 : Binary32 → Binary32
  | finite n =>
    finite (if n % 2 = 0 then n / 2 else if (n / 2) % 2 = 0 then n / 2 else n / 2 + 1)
  | inf => inf

end Binary32

/-- The two statements of `key_callback` that write `materialShininess` (lines 774-782),
on its binary32 value: `* 2.0f` on a press of UP, `/ 2.0f` on a press of DOWN. -/
def key_callback_shininess (s : Binary32) (key action : Int) : Binary32 :=
  let s := if key = GLFW_KEY_UP ∧ action = GLFW_PRESS then s.mul2 else s
  let s := if key = GLFW_KEY_DOWN ∧ action = GLFW_PRESS then s.div2 else s
  s

/-- The binary32 value of `materialShininess` after a sequence of key events, from the
initial `16.0f`. -/
def shininessAfter (events : List KeyEvent) : Binary32 :=
  events.foldl (fun s e => key_callback_shininess s e.key e.action) Binary32.sixteen

/-- The number of presses of DOWN in a sequence of key events. -/
def downPresses (events : List KeyEvent) : Nat :=
  events.countP (fun e => decide (e.key = GLFW_KEY_DOWN ∧ e.action = GLFW_PRESS))

/-! ## The GL machine: what a list of calls does -/

section Machine

variable {F : Type}

open Shader Texture VertexArray Mesh GLCall

/-- The registers of the GL context that the calls of a frame write and its draws read:
the program in use, the bound vertex array, the depth-test function and, per shader, the
matrices last given to its uniforms `model` and `view`. -/
structure GLState (F : Type) where
  program : Option Shader
  vao : Option VertexArray
  depthFunc : DepthFunc
  model : Shader → Option (Mat4 F)
  view : Shader → Option (Mat4 F)

/-- What a frame shows of itself: the clear, each draw call with the registers it is made
under (`draw` for `glDrawArrays` and `glDrawElements`, `meshDraw` for `Model::Draw`), the
overlay and the buffer swap. -/
inductive FrameEvent (F : Type) where
  | clear
  | draw (s : Option Shader) (vao : Option VertexArray) (depth : DepthFunc)
      (model view : Option (Mat4 F))
  | meshDraw (mesh : Mesh) (s : Shader) (depth : DepthFunc) (model view : Option (Mat4 F))
  | overlay
  | swap

/-- The effect of one call on the registers. -/
def glStep (σ : GLState F) : GLCall F → GLState F
  | shader_use s => { σ with program := some s }
  | setMat4 s n v =>
    if n = "model" then { σ with model := fun t => if t = s then some v else σ.model t }
    else if n = "view" then { σ with view := fun t => if t = s then some v else σ.view t }
    else σ
  | glBindVertexArray v => { σ with vao := some v }
  | glDepthFunc f => { σ with depthFunc := f }
  | _ => σ

/-- The event that one call shows, if any, under the registers `σ`. -/
def glEvent (σ : GLState F) : GLCall F → Option (FrameEvent F)
  | glClear => some FrameEvent.clear
  | glDrawArrays _ _ =>
    some (FrameEvent.draw σ.program σ.vao σ.depthFunc (σ.program.bind σ.model)
      (σ.program.bind σ.view))
  | glDrawElements _ =>
    some (FrameEvent.draw σ.program σ.vao σ.depthFunc (σ.program.bind σ.model)
      (σ.program.bind σ.view))
  | Draw mesh s => some (FrameEvent.meshDraw mesh s σ.depthFunc (σ.model s) (σ.view s))
  | DrawImGui => some FrameEvent.overlay
  | glfwSwapBuffers => some FrameEvent.swap
  | _ => none

/-- The registers after a list of calls. -/
def glRun (σ : GLState F) : List (GLCall F) → GLState F
  | [] => σ
  | c :: rest => glRun (glStep σ c) rest

/-- The events of a list of calls started under the registers `σ`, in order. -/
def frameEvents (σ : GLState F) : List (GLCall F) → List (FrameEvent F)
  | [] => []
  | c :: rest =>
    match glEvent σ c with
    | some e => e :: frameEvents (glStep σ c) rest
    | none => frameEvents (glStep σ c) rest

/-- Whether a call is a `glDepthFunc`. -/
def isDepthFunc : GLCall F → Bool
  | glDepthFunc _ => true
  | _ => false

/-- Whether a call gives a value to the uniform `model` of shader `s`. -/
def writesModel (s : Shader) : GLCall F → Bool
  | setMat4 t n _ => t = s && n = "model"
  | _ => false

/-- The depth-test function an event is drawn under, for the draws. -/
def FrameEvent.depth : FrameEvent F → Option DepthFunc
  | FrameEvent.draw _ _ d _ _ => some d
  | FrameEvent.meshDraw _ _ d _ _ => some d
  | _ => none

/-- The program an event is drawn with, for the draws. -/
def FrameEvent.shader : FrameEvent F → Option Shader
  | FrameEvent.draw s _ _ _ _ => s
  | FrameEvent.meshDraw _ s _ _ _ => some s
  | _ => none

/-- The view matrix an event is drawn with, for the draws (`none` for the other
events). -/
def FrameEvent.viewMatrix : FrameEvent F → Option (Option (Mat4 F))
  | FrameEvent.draw _ _ _ _ v => some v
  | FrameEvent.meshDraw _ _ _ _ v => some v
  | _ => none

end Machine

section FrameParts

variable {F : Type} [LinearOrderedField F]

open Shader Texture VertexArray Mesh GLCall

/-- The calls of a frame before its first window: all of `renderFrame` up to and
including the set-up of the window shader. -/
def frameHead (m : Libm F) (ext : External F) (st : ProgramState F) (currentFrame : F)
    (glfwGetTime : Nat → F) : List (GLCall F) :=
  clearPass st ++ dirLightUniforms st ++ pointLightUniforms m st currentFrame ++
   spotLightUniforms st ++ litSetup ext st ++ cubePass m ext glfwGetTime ++ meshPass ext st ++
   lightCubePass m ext st currentFrame ++ targetPass ext st ++ windowPass ext st []

/-- The two calls made for one window in the loop of lines 641-647. -/
def windowDraw (w : Vec3 F) : List (GLCall F) :=
  [setMat4 windowShader "model"
     (glm.scale (glm.translate glm.mat4_identity w) (glm.vec3 3.0)),
   glDrawArrays 0 6]

/-- The calls of a frame after its last window. -/
def frameTail (ext : External F) (st : ProgramState F) : List (GLCall F) :=
  skyboxPass ext st ++ overlayPass st ++ [glfwSwapBuffers, glfwPollEvents]

end FrameParts

/-! ## The statements of the spec that the code is compared with -/

section SpecSide

variable {F : Type} [LinearOrderedField F]

/-- The orbit of a point light as the spec words it (section 4.3): for index 0 and 1 the
rendered position is `(x·cos t, y, z·sin t)`, for index 2 and 3 it is
`(x, y·cos t, z·sin t)`, where `(x, y, z)` is the configured base position. -/
def orbit (m : Libm F) (i : Fin 4) (base : Vec3 F) (t : F) : Vec3 F :=
  if i = 0 ∨ i = 1 then ⟨base.x * m.cos t, base.y, base.z * m.sin t⟩
  else ⟨base.x, base.y * m.cos t, base.z * m.sin t⟩

/-- The name of the uniform `pointLights[i].position` of the lit shader. -/
def pointLightPositionUniform : Fin 4 → String
  | 0 => "pointLights[0].position"
  | 1 => "pointLights[1].position"
  | 2 => "pointLights[2].position"
  | 3 => "pointLights[3].position"

/-- The nine bound pairs of key and action: R, G, B, P on release; UP, DOWN, F1, F2,
SPACE on press. -/
def boundEvent (key action : Int) : Bool :=
  (decide (action = GLFW_RELEASE) &&
    (decide (key = GLFW_KEY_R) || decide (key = GLFW_KEY_G) || decide (key = GLFW_KEY_B) ||
      decide (key = GLFW_KEY_P))) ||
  (decide (action = GLFW_PRESS) &&
    (decide (key = GLFW_KEY_UP) || decide (key = GLFW_KEY_DOWN) ||
      decide (key = GLFW_KEY_F1) || decide (key = GLFW_KEY_F2) ||
      decide (key = GLFW_KEY_SPACE)))

end SpecSide

/-! ## The transparency sort -/

section SortLemmas

variable {α β : Type} [LinearOrder β]

theorem unguarded_linear_insert_perm (comp : α → α → Bool) (val : α) (l : List α) :
    (unguarded_linear_insert comp val l).Perm (val :: l) := by
  induction l with
  | nil => simp [unguarded_linear_insert]
  | cons next rest ih =>
    unfold unguarded_linear_insert
    split
    · exact (ih.cons next).trans (List.Perm.swap val next rest)
    · exact List.Perm.refl _

theorem insertion_step_perm (comp : α → α → Bool) (done : List α) (val : α) :
    (insertion_step comp done val).Perm (val :: done) := by
  unfold insertion_step
  split
  · exact List.Perm.refl _
  · split
    · exact List.Perm.refl _
    · exact (List.reverse_perm _).trans
        ((unguarded_linear_insert_perm comp val _).trans ((List.reverse_perm _).cons val))

theorem foldl_insertion_step_perm (comp : α → α → Bool) (rest done : List α) :
    (rest.foldl (insertion_step comp) done).Perm (done ++ rest) := by
  induction rest generalizing done with
  | nil => simp
  | cons val rest ih =>
    rw [List.foldl_cons]
    refine (ih _).trans ?_
    refine ((insertion_step_perm comp done val).append_right rest).trans ?_
    simpa using (@List.perm_middle _ val done rest).symm

theorem std_sort_perm (comp : α → α → Bool) (l : List α) : (std_sort comp l).Perm l := by
  cases l with
  | nil => exact List.Perm.refl _
  | cons first rest => simpa [std_sort] using foldl_insertion_step_perm comp rest [first]

theorem unguarded_linear_insert_ascending (key : α → β) (comp : α → α → Bool)
    (hc : ∀ a b, comp a b = true ↔ key b < key a) (val : α) (l : List α)
    (hl : l.Pairwise (fun a b => key a ≤ key b)) :
    (unguarded_linear_insert comp val l).Pairwise (fun a b => key a ≤ key b) := by
  induction l with
  | nil => simp [unguarded_linear_insert]
  | cons next rest ih =>
    rw [List.pairwise_cons] at hl
    unfold unguarded_linear_insert
    split
    · rename_i h
      rw [List.pairwise_cons]
      refine ⟨?_, ih hl.2⟩
      intro b hb
      rcases List.mem_cons.mp ((unguarded_linear_insert_perm comp val rest).mem_iff.mp hb)
        with hb | hb
      · rw [hb]; exact le_of_lt ((hc _ _).mp h)
      · exact hl.1 b hb
    · rename_i h
      have hle : key val ≤ key next := by
        rw [hc] at h
        exact not_lt.mp h
      rw [List.pairwise_cons, List.pairwise_cons]
      refine ⟨?_, hl⟩
      intro b hb
      rcases List.mem_cons.mp hb with hb | hb
      · rw [hb]; exact hle
      · exact le_trans hle (hl.1 b hb)

theorem insertion_step_descending (key : α → β) (comp : α → α → Bool)
    (hc : ∀ a b, comp a b = true ↔ key b < key a) (done : List α) (val : α)
    (hd : done.Pairwise (fun a b => key a ≥ key b)) :
    (insertion_step comp done val).Pairwise (fun a b => key a ≥ key b) := by
  unfold insertion_step
  split
  · simp
  · rename_i first tl
    split
    · rename_i h
      rw [List.pairwise_cons]
      refine ⟨?_, hd⟩
      intro b hb
      have h1 : key first < key val := (hc _ _).mp h
      rcases List.mem_cons.mp hb with hb | hb
      · rw [hb]; exact le_of_lt h1
      · exact le_trans ((List.pairwise_cons.mp hd).1 b hb) (le_of_lt h1)
    · rw [List.pairwise_reverse]
      refine (unguarded_linear_insert_ascending key comp hc val _ ?_).imp ?_
      · rw [List.pairwise_reverse]
        exact hd.imp (fun h => h)
      · intro a b h
        exact h

theorem foldl_insertion_step_descending (key : α → β) (comp : α → α → Bool)
    (hc : ∀ a b, comp a b = true ↔ key b < key a) (rest done : List α)
    (hd : done.Pairwise (fun a b => key a ≥ key b)) :
    (rest.foldl (insertion_step comp) done).Pairwise (fun a b => key a ≥ key b) := by
  induction rest generalizing done with
  | nil => simpa using hd
  | cons val rest ih =>
    rw [List.foldl_cons]
    exact ih _ (insertion_step_descending key comp hc done val hd)

theorem std_sort_descending (key : α → β) (comp : α → α → Bool)
    (hc : ∀ a b, comp a b = true ↔ key b < key a) (l : List α) :
    (std_sort comp l).Pairwise (fun a b => key a ≥ key b) := by
  cases l with
  | nil => simp [std_sort]
  | cons first rest =>
    exact foldl_insertion_step_descending key comp hc rest [first] (List.pairwise_singleton _ _)

end SortLemmas

section SortClaims

variable {F : Type} [LinearOrderedField F]

/-- The comparator of `sortWindows` answers `true` exactly when the first argument is
strictly farther from the camera than the second. -/
theorem sortWindows_comp_iff (m : Libm F) (cameraPosition a b : Vec3 F) :
    (fun a b : Vec3 F =>
        let d1 := glm.distance m a cameraPosition
        let d2 := glm.distance m b cameraPosition
        decide (d1 > d2)) a b = true ↔
      glm.distance m b cameraPosition < glm.distance m a cameraPosition := by
  simp

/-- C1: for every list of window positions and every camera position, the list left by
the transparency sort is non-increasing in distance to the camera: every adjacent pair
`(a, b)` of it has `distance(a, camera) ≥ distance(b, camera)`, and so has every pair
`a` before `b`. -/
theorem sortWindows_nonincreasing (m : Libm F) (cameraPosition : Vec3 F)
    (windowPositions : List (Vec3 F)) :
    (sortWindows m cameraPosition windowPositions).Chain'
        (fun a b => glm.distance m a cameraPosition ≥ glm.distance m b cameraPosition) ∧
      (sortWindows m cameraPosition windowPositions).Pairwise
        (fun a b => glm.distance m a cameraPosition ≥ glm.distance m b cameraPosition) := by
  have h := std_sort_descending (fun a => glm.distance m a cameraPosition) _
    (sortWindows_comp_iff m cameraPosition) windowPositions
  exact ⟨List.Pairwise.chain' h, h⟩

/-- C2: the transparency sort returns a permutation of its input, for every list of
window positions and every camera position; hence after any run of frames, whatever the
camera positions, the vector of windows is a permutation of the one it started from. -/
theorem sortWindows_perm (m : Libm F) (cameraPosition : Vec3 F)
    (windowPositions : List (Vec3 F)) :
    (sortWindows m cameraPosition windowPositions).Perm windowPositions ∧
      ∀ cameraPositions : List (Vec3 F),
        (windowsAfterFrames m windowPositions cameraPositions).Perm windowPositions := by
  refine ⟨std_sort_perm _ _, ?_⟩
  intro cams
  unfold windowsAfterFrames
  induction cams generalizing windowPositions with
  | nil => exact List.Perm.refl _
  | cons cam cams ih =>
    rw [List.foldl_cons]
    exact (ih _).trans (std_sort_perm _ _)

/-- C3: with the camera at the origin and four windows at distances 3, 7, 9.5 and 6 from
it, in this input order, the transparency sort returns them in the order of the distances
9.5, 7, 6, 3. -/
theorem sortWindows_scenario (m : Libm F) (a b c d : Vec3 F)
    (ha : glm.distance m a ⟨0, 0, 0⟩ = 3) (hb : glm.distance m b ⟨0, 0, 0⟩ = 7)
    (hc : glm.distance m c ⟨0, 0, 0⟩ = 9.5) (hd : glm.distance m d ⟨0, 0, 0⟩ = 6) :
    sortWindows m ⟨0, 0, 0⟩ [a, b, c, d] = [c, b, d, a] ∧
      (sortWindows m ⟨0, 0, 0⟩ [a, b, c, d]).map (fun w => glm.distance m w ⟨0, 0, 0⟩) =
        [9.5, 7, 6, 3] := by
  have e : sortWindows m ⟨0, 0, 0⟩ [a, b, c, d] = [c, b, d, a] := by
    have s1 : ∀ done val, insertion_step (fun a b : Vec3 F =>
        let d1 := glm.distance m a ⟨0, 0, 0⟩
        let d2 := glm.distance m b ⟨0, 0, 0⟩
        decide (d1 > d2)) done val =
        match done with
        | [] => [val]
        | first :: _ =>
          if glm.distance m first ⟨0, 0, 0⟩ < glm.distance m val ⟨0, 0, 0⟩ then val :: done
          else (unguarded_linear_insert (fun a b : Vec3 F =>
            decide (glm.distance m a ⟨0, 0, 0⟩ > glm.distance m b ⟨0, 0, 0⟩)) val
              done.reverse).reverse := by
      intro done val
      cases done <;> simp [insertion_step]
    simp only [sortWindows, std_sort, List.foldl_cons, List.foldl_nil, s1]
    rw [if_pos (by rw [ha, hb]; norm_num)]
    simp only []
    rw [if_pos (by rw [hb, hc]; norm_num)]
    simp only []
    rw [if_neg (by rw [hc, hd]; norm_num)]
    simp only [List.reverse_cons, List.reverse_nil, List.nil_append, List.cons_append,
      unguarded_linear_insert, ha, hb, hc, hd]
    norm_num
  rw [e]
  simp [ha, hb, hc, hd]

/-- C3 at the windows `(1, 2, 2)`, `(2, 3, 6)`, `(0, 0, 9.5)` and `(2, 4, 4)`, over the
real numbers. -/
theorem sortWindows_scenario_witness :
    sortWindows (Libm.mk Real.sqrt Real.cos Real.sin) ⟨0, 0, 0⟩
        [⟨1, 2, 2⟩, ⟨2, 3, 6⟩, ⟨0, 0, 9.5⟩, ⟨2, 4, 4⟩] =
      [⟨0, 0, 9.5⟩, ⟨2, 3, 6⟩, ⟨2, 4, 4⟩, ⟨1, 2, 2⟩] :=
  (sortWindows_scenario (Libm.mk Real.sqrt Real.cos Real.sin)
    ⟨1, 2, 2⟩ ⟨2, 3, 6⟩ ⟨0, 0, 9.5⟩ ⟨2, 4, 4⟩
    (by
      simp only [glm.distance, glm.length, glm.dot, glm.sub]
      rw [show ((0:ℝ) - 1) * (0 - 1) + (0 - 2) * (0 - 2) + (0 - 2) * (0 - 2) = 3 ^ 2 by norm_num]
      exact Real.sqrt_sq (by norm_num))
    (by
      simp only [glm.distance, glm.length, glm.dot, glm.sub]
      rw [show ((0:ℝ) - 2) * (0 - 2) + (0 - 3) * (0 - 3) + (0 - 6) * (0 - 6) = 7 ^ 2 by norm_num]
      exact Real.sqrt_sq (by norm_num))
    (by
      simp only [glm.distance, glm.length, glm.dot, glm.sub]
      rw [show ((0:ℝ) - 0) * (0 - 0) + (0 - 0) * (0 - 0) + (0 - 9.5) * (0 - 9.5) = 9.5 ^ 2
        by norm_num]
      exact Real.sqrt_sq (by norm_num))
    (by
      simp only [glm.distance, glm.length, glm.dot, glm.sub]
      rw [show ((0:ℝ) - 2) * (0 - 2) + (0 - 4) * (0 - 4) + (0 - 4) * (0 - 4) = 6 ^ 2 by norm_num]
      exact Real.sqrt_sq (by norm_num))).1

end SortClaims

/-! ## Reading the calls of a frame -/

section TraceLemmas

variable {F : Type}

open Shader Texture VertexArray Mesh GLCall

theorem vec3Writes_append (s : Shader) (name : String) (a b : List (GLCall F)) :
    vec3Writes s name (a ++ b) = vec3Writes s name a ++ vec3Writes s name b := by
  induction a with
  | nil => rfl
  | cons c a ih =>
    cases c <;> rw [List.cons_append] <;> simp only [vec3Writes, ih]
    split <;> simp

theorem vec3Writes_flatMap_nil {ι : Type} (s : Shader) (name : String) (l : List ι)
    (f : ι → List (GLCall F)) (h : ∀ x, vec3Writes s name (f x) = []) :
    vec3Writes s name (l.flatMap f) = [] := by
  induction l with
  | nil => rfl
  | cons x l ih => rw [List.flatMap_cons, vec3Writes_append, h, ih]; rfl

theorem drawLog_append (σ : DrawState F) (a b : List (GLCall F)) :
    ∃ σ1 : DrawState F, drawLog σ (a ++ b) = drawLog σ a ++ drawLog σ1 b := by
  induction a generalizing σ with
  | nil => exact ⟨σ, rfl⟩
  | cons c a ih =>
    cases c <;> rw [List.cons_append] <;> simp only [drawLog] <;>
      first
      | exact ih _
      | (obtain ⟨σ1, h⟩ := ih σ; exact ⟨σ1, by rw [h]; rfl⟩)

theorem any_flatMap_false {ι α : Type} (p : α → Bool) (l : List ι) (f : ι → List α)
    (h : ∀ x, (f x).any p = false) : (l.flatMap f).any p = false := by
  induction l with
  | nil => rfl
  | cons x l ih => rw [List.flatMap_cons, List.any_append, h, ih]; rfl

theorem drawLog_shader_ne (s : Shader) (l : List (GLCall F)) (σ : DrawState F)
    (hσ : σ.current ≠ some s) (h : l.any (selects s) = false) :
    ∀ r ∈ drawLog σ l, r.shader ≠ some s := by
  induction l generalizing σ with
  | nil => intro r hr; simp [drawLog] at hr
  | cons c l ih =>
    rw [List.any_cons, Bool.or_eq_false_iff] at h
    obtain ⟨hc, hl⟩ := h
    cases c with
    | shader_use t =>
      simp only [drawLog]
      refine ih _ ?_ hl
      intro e
      simp only [Option.some.injEq] at e
      simp [selects, e] at hc
    | setMat4 t n v =>
      simp only [drawLog]
      refine ih _ ?_ hl
      split <;> exact hσ
    | glDrawArrays a b =>
      simp only [drawLog, List.mem_cons]
      rintro r (hr | hr)
      · rw [hr]; exact hσ
      · exact ih σ hσ hl r hr
    | glDrawElements a =>
      simp only [drawLog, List.mem_cons]
      rintro r (hr | hr)
      · rw [hr]; exact hσ
      · exact ih σ hσ hl r hr
    | Draw mesh t =>
      simp only [drawLog, List.mem_cons]
      rintro r (hr | hr)
      · rw [hr]
        intro e
        simp only [Option.some.injEq] at e
        simp [selects, e] at hc
      · exact ih σ hσ hl r hr
    | _ => simp only [drawLog]; exact ih σ hσ hl

end TraceLemmas

section FrameLemmas

variable {F : Type} [LinearOrderedField F]

open Shader Texture VertexArray Mesh GLCall

/-- The calls of a frame outside the three blocks of light uniforms give no `vec3`
uniform. -/
theorem vec3Writes_other_passes (s : Shader) (name : String) (m : Libm F) (ext : External F)
    (st : ProgramState F) (t : F) (glfwGetTime : Nat → F) (ws : List (Vec3 F)) :
    vec3Writes s name (clearPass st) = [] ∧ vec3Writes s name (litSetup ext st) = [] ∧
      vec3Writes s name (cubePass m ext glfwGetTime) = [] ∧
      vec3Writes s name (meshPass ext st) = [] ∧
      vec3Writes s name (lightCubePass m ext st t) = [] ∧
      vec3Writes s name (targetPass ext st) = [] ∧
      vec3Writes s name (windowPass ext st ws) = [] ∧
      vec3Writes s name (skyboxPass ext st) = [] ∧
      vec3Writes s name (overlayPass st) = [] := by
  refine ⟨?_, ?_, ?_, ?_, ?_, ?_, ?_, ?_, ?_⟩
  · simp [clearPass, vec3Writes]
  · simp [litSetup, vec3Writes]
  · simp only [cubePass, vec3Writes]
  · simp only [meshPass, vec3Writes_append]
    rw [vec3Writes_flatMap_nil _ _ _ _ (fun x => by simp [vec3Writes])]
    simp [vec3Writes]
  · simp only [lightCubePass, vec3Writes_append]
    rw [vec3Writes_flatMap_nil _ _ _ _ (fun x => by simp [vec3Writes])]
    simp [vec3Writes]
  · simp only [targetPass, vec3Writes_append]
    rw [vec3Writes_flatMap_nil _ _ _ _ (fun x => by simp [vec3Writes])]
    simp [vec3Writes]
  · simp only [windowPass, vec3Writes_append]
    rw [vec3Writes_flatMap_nil _ _ _ _ (fun x => by simp [vec3Writes])]
    simp [vec3Writes]
  · unfold skyboxPass
    split <;> simp [vec3Writes]
  · unfold overlayPass
    split <;> simp [vec3Writes]

/-- The `vec3` uniforms of a frame are those of its three blocks of light uniforms. -/
theorem vec3Writes_renderFrame (s : Shader) (name : String) (m : Libm F) (ext : External F)
    (st : ProgramState F) (t : F) (glfwGetTime : Nat → F) (ws : List (Vec3 F)) :
    vec3Writes s name (renderFrame m ext st t glfwGetTime ws).2 =
      vec3Writes s name (dirLightUniforms st) ++ vec3Writes s name (pointLightUniforms m st t) ++
        vec3Writes s name (spotLightUniforms st) := by
  obtain ⟨h1, h2, h3, h4, h5, h6, h7, h8, h9⟩ :=
    vec3Writes_other_passes s name m ext st t glfwGetTime
      (sortWindows m st.camera.Position ws)
  simp only [renderFrame, vec3Writes_append, h1, h2, h3, h4, h5, h6, h7, h8, h9,
    List.nil_append, List.append_nil]
  simp [vec3Writes]

end FrameLemmas

section LightClaims

variable {F : Type} [LinearOrderedField F]

open Shader Texture VertexArray Mesh GLCall

theorem drawLog_clearPass_use (σ : DrawState F) (st : ProgramState F) (s : Shader)
    (rest : List (GLCall F)) :
    drawLog σ (clearPass st ++ shader_use s :: rest) =
      drawLog { σ with current := some s } rest := by
  simp only [clearPass, List.cons_append, List.nil_append, drawLog]

/-- The passes drawn with the lit shader never select the light-marker shader. -/
theorem lit_passes_avoid_lightCube (m : Libm F) (ext : External F) (st : ProgramState F)
    (t : F) (glfwGetTime : Nat → F) :
    ((dirLightUniforms st).tail ++ pointLightUniforms m st t ++ spotLightUniforms st ++
        litSetup ext st ++ cubePass m ext glfwGetTime ++ meshPass ext st).any
      (selects lightCubeShader) = false := by
  simp only [List.any_append, Bool.or_eq_false_iff]
  refine ⟨⟨⟨⟨⟨?_, ?_⟩, ?_⟩, ?_⟩, ?_⟩, ?_⟩
  · rfl
  · rfl
  · rfl
  · rfl
  · simp only [cubePass, List.any_cons, selects, Bool.false_or]
    exact any_flatMap_false _ _ _ (fun x => rfl)
  · simp only [meshPass, List.any_append, Bool.or_eq_false_iff]
    exact ⟨any_flatMap_false _ _ _ (fun x => rfl), rfl⟩

/-- The passes after the light markers never select the light-marker shader. -/
theorem late_passes_avoid_lightCube (ext : External F) (st : ProgramState F)
    (ws : List (Vec3 F)) :
    ((targetPass ext st).tail ++ windowPass ext st ws ++ skyboxPass ext st ++
        overlayPass st ++ [glfwSwapBuffers, glfwPollEvents]).any
      (selects lightCubeShader) = false := by
  simp only [List.any_append, Bool.or_eq_false_iff]
  refine ⟨⟨⟨⟨?_, ?_⟩, ?_⟩, ?_⟩, ?_⟩
  · simp only [targetPass, List.cons_append, List.tail_cons, List.nil_append, List.any_cons,
      selects, Bool.false_or]
    exact any_flatMap_false _ _ _ (fun x => rfl)
  · simp only [windowPass, List.cons_append, List.nil_append, List.any_cons,
      selects, Bool.false_or]
    exact any_flatMap_false _ _ _ (fun x => rfl)
  · unfold skyboxPass
    split <;> rfl
  · unfold overlayPass
    split <;> rfl
  · rfl

/-- The draws of `lightCubePass`: four records, each with the light-marker shader and
the model matrix of that light, whatever the registers before the pass. -/
theorem drawLog_lightCubePass (m : Libm F) (ext : External F) (st : ProgramState F) (t : F)
    (σ : DrawState F) :
    drawLog σ (lightCubePass m ext st t) =
      ([0, 1, 2, 3] : List (Fin 4)).map fun i =>
        ⟨some lightCubeShader,
         some (glm.scale
           (glm.translate glm.mat4_identity (dynamicPointLightsPositions m st t i))
           (glm.vec3 0.2))⟩ := by
  simp [lightCubePass, drawLog]

/-- The draws of a frame made with the light-marker shader are the four of
`lightCubePass`, whatever the GL registers at the head of the frame. -/
theorem drawLog_lightCube (m : Libm F) (ext : External F) (st : ProgramState F) (t : F)
    (glfwGetTime : Nat → F) (ws : List (Vec3 F)) (σ : DrawState F) :
    (drawLog σ (renderFrame m ext st t glfwGetTime ws).2).filter
        (fun r => r.shader = some lightCubeShader) =
      ([0, 1, 2, 3] : List (Fin 4)).map fun i =>
        ⟨some lightCubeShader,
         some (glm.scale
           (glm.translate glm.mat4_identity (dynamicPointLightsPositions m st t i))
           (glm.vec3 0.2))⟩ := by
  have hsplit : (renderFrame m ext st t glfwGetTime ws).2 =
      (clearPass st ++ shader_use lightingShader ::
        ((dirLightUniforms st).tail ++ pointLightUniforms m st t ++ spotLightUniforms st ++
          litSetup ext st ++ cubePass m ext glfwGetTime ++ meshPass ext st)) ++
      (lightCubePass m ext st t ++
        shader_use targetShader :: ((targetPass ext st).tail ++
          windowPass ext st (sortWindows m st.camera.Position ws) ++
          skyboxPass ext st ++ overlayPass st ++ [glfwSwapBuffers, glfwPollEvents])) := by
    simp only [renderFrame, dirLightUniforms, targetPass, List.tail_cons, List.append_assoc,
      List.cons_append, List.nil_append]
  rw [hsplit]
  obtain ⟨σ1, h1⟩ := drawLog_append σ (clearPass st ++ shader_use lightingShader ::
        ((dirLightUniforms st).tail ++ pointLightUniforms m st t ++ spotLightUniforms st ++
          litSetup ext st ++ cubePass m ext glfwGetTime ++ meshPass ext st))
      (lightCubePass m ext st t ++
        shader_use targetShader :: ((targetPass ext st).tail ++
          windowPass ext st (sortWindows m st.camera.Position ws) ++
          skyboxPass ext st ++ overlayPass st ++ [glfwSwapBuffers, glfwPollEvents]))
  obtain ⟨σ2, h2⟩ := drawLog_append σ1 (lightCubePass m ext st t)
      (shader_use targetShader :: ((targetPass ext st).tail ++
          windowPass ext st (sortWindows m st.camera.Position ws) ++
          skyboxPass ext st ++ overlayPass st ++ [glfwSwapBuffers, glfwPollEvents]))
  rw [h1, h2, List.filter_append, List.filter_append, drawLog_clearPass_use,
    drawLog_lightCubePass]
  have hA : ∀ τ : DrawState F, τ.current ≠ some lightCubeShader →
      ∀ l : List (GLCall F), l.any (selects lightCubeShader) = false →
        (drawLog τ l).filter (fun r => r.shader = some lightCubeShader) = [] := by
    intro τ hτ l hl
    rw [List.filter_eq_nil_iff]
    intro r hr
    simpa using drawLog_shader_ne lightCubeShader l τ hτ hl r hr
  rw [hA _ (by simp) _ (lit_passes_avoid_lightCube m ext st t glfwGetTime)]
  have hB : drawLog σ2 (shader_use targetShader :: ((targetPass ext st).tail ++
          windowPass ext st (sortWindows m st.camera.Position ws) ++
          skyboxPass ext st ++ overlayPass st ++ [glfwSwapBuffers, glfwPollEvents])) =
      drawLog { σ2 with current := some targetShader } ((targetPass ext st).tail ++
          windowPass ext st (sortWindows m st.camera.Position ws) ++
          skyboxPass ext st ++ overlayPass st ++ [glfwSwapBuffers, glfwPollEvents]) := by
    simp only [drawLog]
  rw [hB, hA _ (by simp) _ (late_passes_avoid_lightCube ext st _)]
  simp

/-- C4: for every time `t` and every state, the position of point light `i` computed
in the frame is the orbit of the spec applied to its configured position, that is
`(x cos t, y, z sin t)` for `i = 0, 1` and `(x, y cos t, z sin t)` for `i = 2, 3`; this
vector is the one value given to the uniform `pointLights[i].position` in the frame, and
the draws made with the light-marker shader are four, the `i`-th with the model matrix
`scale(translate(1, v_i), 0.2)`, whose translation column is `(v_i, 1)`. -/
theorem pointLight_rendered_position (m : Libm F) (ext : External F) (st : ProgramState F)
    (t : F) (glfwGetTime : Nat → F) (ws : List (Vec3 F)) (σ : DrawState F) :
    (∀ i : Fin 4,
        dynamicPointLightsPositions m st t i = orbit m i (st.pointLights i).position t) ∧
      (∀ i : Fin 4,
        vec3Writes lightingShader (pointLightPositionUniform i)
            (renderFrame m ext st t glfwGetTime ws).2 =
          [orbit m i (st.pointLights i).position t]) ∧
      (drawLog σ (renderFrame m ext st t glfwGetTime ws).2).filter
          (fun r => r.shader = some lightCubeShader) =
        (([0, 1, 2, 3] : List (Fin 4)).map fun i =>
          ⟨some lightCubeShader,
           some (glm.scale
             (glm.translate glm.mat4_identity (orbit m i (st.pointLights i).position t))
             (glm.vec3 0.2))⟩) ∧
      ∀ v : Vec3 F,
        (glm.scale (glm.translate glm.mat4_identity v) (glm.vec3 0.2)).c3 =
          ⟨v.x, v.y, v.z, 1⟩ := by
  have h0 : ∀ i : Fin 4,
      dynamicPointLightsPositions m st t i = orbit m i (st.pointLights i).position t := by
    intro i
    fin_cases i <;> simp [dynamicPointLightsPositions, orbit]
  refine ⟨h0, ?_, ?_, ?_⟩
  · intro i
    rw [← h0 i, vec3Writes_renderFrame]
    fin_cases i <;>
      simp [dirLightUniforms, pointLightUniforms, spotLightUniforms, vec3Writes,
        pointLightPositionUniform]
  · rw [drawLog_lightCube]
    simp only [h0]
  · intro v
    simp [glm.scale, glm.translate, glm.mat4_identity, glm.add4, glm.smul4]

/-- C7: in every frame the uniforms `spotLight.position` and `spotLight.direction`
receive one value each, the camera members `Position` and `Front`; and the frame (the
sorted windows and every call issued) is the same whatever the members `position` and
`direction` of the record `spotLight` hold. -/
theorem spotLight_bound_to_camera (m : Libm F) (ext : External F) (st : ProgramState F)
    (t : F) (glfwGetTime : Nat → F) (ws : List (Vec3 F)) :
    vec3Writes lightingShader "spotLight.position" (renderFrame m ext st t glfwGetTime ws).2 =
        [st.camera.Position] ∧
      vec3Writes lightingShader "spotLight.direction"
          (renderFrame m ext st t glfwGetTime ws).2 = [st.camera.Front] ∧
      ∀ p d : Vec3 F,
        renderFrame m ext
            { st with spotLight := { st.spotLight with position := p, direction := d } }
            t glfwGetTime ws =
          renderFrame m ext st t glfwGetTime ws := by
  refine ⟨?_, ?_, ?_⟩
  · rw [vec3Writes_renderFrame]
    simp [dirLightUniforms, pointLightUniforms, spotLightUniforms, vec3Writes]
  · rw [vec3Writes_renderFrame]
    simp [dirLightUniforms, pointLightUniforms, spotLightUniforms, vec3Writes]
  · intro p d
    rfl

end LightClaims

section OrbitClaims

open Shader Texture VertexArray Mesh GLCall

/-- C5, as stated, fails: at `t = 0` the first point light of the program, configured at
`(0.7, 0.2, 2.0)`, is rendered at `(0.7, 0.2, 0)`, which is not its base position. -/
theorem orbit_at_zero_counterexample :
    dynamicPointLightsPositions (Libm.mk Real.sqrt Real.cos Real.sin)
        (sceneAtStart (Libm.mk Real.sqrt Real.cos Real.sin)) 0 0 = ⟨0.7, 0.2, 0⟩ ∧
      ((sceneAtStart (Libm.mk Real.sqrt Real.cos Real.sin)).pointLights 0).position =
        ⟨0.7, 0.2, 2.0⟩ ∧
      dynamicPointLightsPositions (Libm.mk Real.sqrt Real.cos Real.sin)
          (sceneAtStart (Libm.mk Real.sqrt Real.cos Real.sin)) 0 0 ≠
        ((sceneAtStart (Libm.mk Real.sqrt Real.cos Real.sin)).pointLights 0).position := by
  refine ⟨?_, ?_, ?_⟩
  · simp [dynamicPointLightsPositions, sceneAtStart, setupLights, pointLightPositions]
  · simp [sceneAtStart, setupLights, pointLightPositions]
  · norm_num [dynamicPointLightsPositions, sceneAtStart, setupLights, pointLightPositions]

/-- C5, amended: at `t = 0`, for each of the four point lights and every configured base
position `(x, y, z)`, the rendered position is `(x, y, 0)`; it is the base position exactly
when `z = 0`. -/
theorem orbit_at_zero (st : ProgramState ℝ) (i : Fin 4) :
    dynamicPointLightsPositions (Libm.mk Real.sqrt Real.cos Real.sin) st 0 i =
        ⟨(st.pointLights i).position.x, (st.pointLights i).position.y, 0⟩ ∧
      (dynamicPointLightsPositions (Libm.mk Real.sqrt Real.cos Real.sin) st 0 i =
          (st.pointLights i).position ↔ (st.pointLights i).position.z = 0) := by
  have h : dynamicPointLightsPositions (Libm.mk Real.sqrt Real.cos Real.sin) st 0 i =
      ⟨(st.pointLights i).position.x, (st.pointLights i).position.y, 0⟩ := by
    fin_cases i <;> simp [dynamicPointLightsPositions]
  refine ⟨h, ?_⟩
  rw [h]
  constructor
  · intro e
    rw [← e]
  · intro e
    rw [← e]

/-- C6: for each of the four point lights, every state and every real time `t`, the
rendered position at `t + 2π` is the rendered position at `t`. -/
theorem orbit_periodic (st : ProgramState ℝ) (t : ℝ) (i : Fin 4) :
    dynamicPointLightsPositions (Libm.mk Real.sqrt Real.cos Real.sin) st
        (t + 2 * Real.pi) i =
      dynamicPointLightsPositions (Libm.mk Real.sqrt Real.cos Real.sin) st t i := by
  fin_cases i <;>
    simp [dynamicPointLightsPositions, Real.cos_add_two_pi, Real.sin_add_two_pi]

end OrbitClaims

section KeyClaims

variable {F : Type} [LinearOrderedField F]

/-- C8: from every state with positive `materialShininess`, a press of UP followed by a
press of DOWN leaves `materialShininess` as it was. -/
theorem shininess_up_down (st : ProgramState F) (scancode1 mods1 scancode2 mods2 : Int)
    (_hs : 0 < st.materialShininess) :
    (key_callback (key_callback st GLFW_KEY_UP scancode1 GLFW_PRESS mods1)
        GLFW_KEY_DOWN scancode2 GLFW_PRESS mods2).materialShininess =
      st.materialShininess := by
  norm_num [key_callback]

/-- C8 at the state of the first frame, whose shininess is 16. -/
theorem shininess_up_down_witness :
    (key_callback
        (key_callback (sceneAtStart (Libm.mk Real.sqrt Real.cos Real.sin))
          GLFW_KEY_UP 0 GLFW_PRESS 0)
        GLFW_KEY_DOWN 0 GLFW_PRESS 0).materialShininess = 16 :=
  (shininess_up_down (sceneAtStart (Libm.mk Real.sqrt Real.cos Real.sin)) 0 0 0 0
    (by norm_num [sceneAtStart, setupLights, ProgramState.initial])).trans
    (by norm_num [sceneAtStart, setupLights, ProgramState.initial])

/-- C9: the state made by `new ProgramState` has `materialShininess = 16.0`; two presses
of UP give `64.0`, and one more press of DOWN gives `32.0`. -/
theorem shininess_scenario (camera : Camera F) (dirLight : DirLight F)
    (pointLights : Fin 4 → PointLight F) (spotLight : SpotLight F)
    (scancode1 mods1 scancode2 mods2 scancode3 mods3 : Int) :
    (ProgramState.initial camera dirLight pointLights spotLight).materialShininess = 16.0 ∧
      (key_callback
          (key_callback (ProgramState.initial camera dirLight pointLights spotLight)
            GLFW_KEY_UP scancode1 GLFW_PRESS mods1)
          GLFW_KEY_UP scancode2 GLFW_PRESS mods2).materialShininess = 64.0 ∧
      (key_callback
          (key_callback
            (key_callback (ProgramState.initial camera dirLight pointLights spotLight)
              GLFW_KEY_UP scancode1 GLFW_PRESS mods1)
            GLFW_KEY_UP scancode2 GLFW_PRESS mods2)
          GLFW_KEY_DOWN scancode3 GLFW_PRESS mods3).materialShininess = 32.0 := by
  refine ⟨rfl, ?_, ?_⟩
  · simp only [key_callback, ProgramState.initial]
    norm_num
  · simp only [key_callback, ProgramState.initial]
    norm_num

/-- C10: a release of R, G, B or P sets `clearColor` to `(1, 0, 0)`, `(0, 1, 0)`,
`(0, 0, 1)` or `(0.1, 0.1, 0.1)`, whatever the state before; from the state made by
`new ProgramState`, whose `clearColor` is `(0.1, 0.1, 0.1)`, a release of G gives
`(0, 1, 0)` and a following release of P gives `(0.1, 0.1, 0.1)` again. -/
theorem clearColor_release (st : ProgramState F) (camera : Camera F) (dirLight : DirLight F)
    (pointLights : Fin 4 → PointLight F) (spotLight : SpotLight F)
    (scancode mods scancode1 mods1 : Int) :
    (key_callback st GLFW_KEY_R scancode GLFW_RELEASE mods).clearColor = ⟨1, 0, 0⟩ ∧
      (key_callback st GLFW_KEY_G scancode GLFW_RELEASE mods).clearColor = ⟨0, 1, 0⟩ ∧
      (key_callback st GLFW_KEY_B scancode GLFW_RELEASE mods).clearColor = ⟨0, 0, 1⟩ ∧
      (key_callback st GLFW_KEY_P scancode GLFW_RELEASE mods).clearColor = ⟨0.1, 0.1, 0.1⟩ ∧
      (ProgramState.initial camera dirLight pointLights spotLight).clearColor =
        ⟨0.1, 0.1, 0.1⟩ ∧
      (key_callback (ProgramState.initial camera dirLight pointLights spotLight)
        GLFW_KEY_G scancode GLFW_RELEASE mods).clearColor = ⟨0, 1, 0⟩ ∧
      (key_callback
        (key_callback (ProgramState.initial camera dirLight pointLights spotLight)
          GLFW_KEY_G scancode GLFW_RELEASE mods)
        GLFW_KEY_P scancode1 GLFW_RELEASE mods1).clearColor = ⟨0.1, 0.1, 0.1⟩ := by
  refine ⟨?_, ?_, ?_, ?_, rfl, ?_, ?_⟩ <;> norm_num [key_callback]

end KeyClaims

section MachineLemmas

variable {F : Type}

open Shader Texture VertexArray Mesh GLCall

theorem glRun_append (σ : GLState F) (a b : List (GLCall F)) :
    glRun σ (a ++ b) = glRun (glRun σ a) b := by
  induction a generalizing σ with
  | nil => rfl
  | cons c a ih => rw [List.cons_append]; simp only [glRun]; exact ih _

theorem frameEvents_append (σ : GLState F) (a b : List (GLCall F)) :
    frameEvents σ (a ++ b) = frameEvents σ a ++ frameEvents (glRun σ a) b := by
  induction a generalizing σ with
  | nil => rfl
  | cons c a ih =>
    rw [List.cons_append]
    simp only [frameEvents, glRun]
    cases glEvent σ c <;> simp [ih]

theorem glRun_depthFunc (σ : GLState F) (l : List (GLCall F))
    (h : l.any isDepthFunc = false) : (glRun σ l).depthFunc = σ.depthFunc := by
  induction l generalizing σ with
  | nil => rfl
  | cons c l ih =>
    rw [List.any_cons, Bool.or_eq_false_iff] at h
    simp only [glRun]
    rw [ih _ h.2]
    cases c <;> simp only [glStep] <;> first | rfl | (split_ifs <;> rfl) | simp [isDepthFunc] at h

theorem glRun_model (s : Shader) (σ : GLState F) (l : List (GLCall F))
    (h : l.any (writesModel s) = false) : (glRun σ l).model s = σ.model s := by
  induction l generalizing σ with
  | nil => rfl
  | cons c l ih =>
    rw [List.any_cons, Bool.or_eq_false_iff] at h
    simp only [glRun]
    rw [ih _ h.2]
    cases c with
    | setMat4 t n v =>
      have h1 := h.1
      simp only [writesModel, Bool.and_eq_false_iff, decide_eq_false_iff_not] at h1
      simp only [glStep]
      split_ifs with hn
      · rcases h1 with h1 | h1
        · simp only []
          rw [if_neg (fun e => h1 e.symm)]
        · exact absurd hn h1
      · rfl
      · rfl
    | _ => rfl

end MachineLemmas

section BlockLemmas

variable {F : Type} [LinearOrderedField F]

open Shader Texture VertexArray Mesh GLCall

theorem range10 : List.range 10 = [0, 1, 2, 3, 4, 5, 6, 7, 8, 9] := rfl

theorem range4 : List.range 4 = [0, 1, 2, 3] := rfl

theorem range2 : List.range 2 = [0, 1] := rfl

/-- A frame is its head, the draws of the sorted windows and its tail. -/
theorem renderFrame_parts (m : Libm F) (ext : External F) (st : ProgramState F) (t : F)
    (glfwGetTime : Nat → F) (ws : List (Vec3 F)) :
    (renderFrame m ext st t glfwGetTime ws).2 =
      frameHead m ext st t glfwGetTime ++
        ((sortWindows m st.camera.Position ws).flatMap windowDraw ++ frameTail ext st) := by
  simp only [renderFrame, frameHead, frameTail, windowPass, List.flatMap_nil, List.append_nil,
    List.append_assoc]
  rfl

/-- The events of the head of a frame: the clear, ten containers, four rocks, the bow,
the dragon, four light markers and two targets, all under the depth function the frame
starts with and the view matrix of the frame. -/
theorem frameEvents_frameHead (m : Libm F) (ext : External F) (st : ProgramState F) (t : F)
    (glfwGetTime : Nat → F) (σ : GLState F) :
    frameEvents σ (frameHead m ext st t glfwGetTime) =
      [FrameEvent.clear] ++
      ((List.range 10).map fun i =>
        FrameEvent.draw (some lightingShader) (some cubeVAO) σ.depthFunc
          (some (ext.rotate (glm.translate glm.mat4_identity (cubePositions i))
            (glm.radians (cubeAngle m i (glfwGetTime i))) ⟨1.0, 0.3, 0.5⟩))
          (some (view ext st))) ++
      ((List.range 4).map fun i =>
        FrameEvent.meshDraw rockModel lightingShader σ.depthFunc
          (some (glm.scale (glm.translate glm.mat4_identity (rockPositions i)) (glm.vec3 1.1)))
          (some (view ext st))) ++
      [FrameEvent.meshDraw bowModel lightingShader σ.depthFunc
         (some (glm.scale
           (ext.rotate
             (glm.translate glm.mat4_identity
               ⟨st.camera.Position.x - 0.15, st.camera.Position.y, st.camera.Position.z - 1⟩)
             (3.14159265358979323846 / 2.0) ⟨1.0, 0.0, 0.0⟩)
           (glm.vec3 0.2)))
         (some (view ext st)),
       FrameEvent.meshDraw dragonModel lightingShader σ.depthFunc
         (some (glm.scale (glm.translate glm.mat4_identity st.dragonPosition)
           (glm.vec3 st.dragonScale)))
         (some (view ext st))] ++
      (([0, 1, 2, 3] : List (Fin 4)).map fun i =>
        FrameEvent.draw (some lightCubeShader) (some lightCubeVAO) σ.depthFunc
          (some (glm.scale
            (glm.translate glm.mat4_identity (dynamicPointLightsPositions m st t i))
            (glm.vec3 0.2)))
          (some (view ext st))) ++
      ((List.range 2).map fun i =>
        FrameEvent.draw (some targetShader) (some VAO1) σ.depthFunc
          (some (glm.scale (glm.translate glm.mat4_identity ⟨(i : F) * 5, 2.0, -18.0⟩)
            (glm.vec3 1.5)))
          (some (view ext st))) := by
  simp [frameHead, clearPass, dirLightUniforms, pointLightUniforms, spotLightUniforms, litSetup,
    cubePass, meshPass, lightCubePass, targetPass, windowPass, range10, range4, range2,
    frameEvents, glEvent, glStep]

set_option maxRecDepth 4000 in
/-- The registers at the first window: the window shader and its vertex array are
selected, its view matrix is the one of the frame, the depth function and the `model`
matrix of the skybox shader are those the frame started with. -/
theorem glRun_frameHead (m : Libm F) (ext : External F) (st : ProgramState F) (t : F)
    (glfwGetTime : Nat → F) (σ : GLState F) :
    (glRun σ (frameHead m ext st t glfwGetTime)).program = some windowShader ∧
      (glRun σ (frameHead m ext st t glfwGetTime)).vao = some windowVAO ∧
      (glRun σ (frameHead m ext st t glfwGetTime)).view windowShader = some (view ext st) ∧
      (glRun σ (frameHead m ext st t glfwGetTime)).depthFunc = σ.depthFunc ∧
      (glRun σ (frameHead m ext st t glfwGetTime)).model skyboxShader =
        σ.model skyboxShader := by
  simp [frameHead, clearPass, dirLightUniforms, pointLightUniforms, spotLightUniforms, litSetup,
    cubePass, meshPass, lightCubePass, targetPass, windowPass, range10, range4, range2,
    glRun, glStep]

theorem frameEvents_windowDraw (w : Vec3 F) (σ : GLState F) (rest : List (GLCall F)) :
    frameEvents σ (windowDraw w ++ rest) =
        FrameEvent.draw σ.program σ.vao σ.depthFunc
            (σ.program.bind fun t =>
              if t = windowShader then
                some (glm.scale (glm.translate glm.mat4_identity w) (glm.vec3 3.0))
              else σ.model t)
            (σ.program.bind σ.view) ::
          frameEvents
            { σ with model := fun t =>
                if t = windowShader then
                  some (glm.scale (glm.translate glm.mat4_identity w) (glm.vec3 3.0))
                else σ.model t }
            rest ∧
      glRun σ (windowDraw w ++ rest) =
        glRun
          { σ with model := fun t =>
              if t = windowShader then
                some (glm.scale (glm.translate glm.mat4_identity w) (glm.vec3 3.0))
              else σ.model t }
          rest := by
  constructor
  · rw [windowDraw, List.cons_append, List.cons_append, List.nil_append]
    simp only [frameEvents, glEvent, glStep, if_true]
  · rw [windowDraw, List.cons_append, List.cons_append, List.nil_append]
    simp only [glRun, glStep, if_true]

/-- The window loop: one draw per window, in the order of the list, and registers that
differ from those before the loop at most in the `model` matrix of the window shader. -/
theorem frameEvents_windows (V : Mat4 F) (ws : List (Vec3 F)) (σ : GLState F)
    (hp : σ.program = some windowShader) (hv : σ.vao = some windowVAO)
    (hw : σ.view windowShader = some V) :
    frameEvents σ (ws.flatMap windowDraw) =
        (ws.map fun w =>
          FrameEvent.draw (some windowShader) (some windowVAO) σ.depthFunc
            (some (glm.scale (glm.translate glm.mat4_identity w) (glm.vec3 3.0))) (some V)) ∧
      (glRun σ (ws.flatMap windowDraw)).depthFunc = σ.depthFunc ∧
      (glRun σ (ws.flatMap windowDraw)).model skyboxShader = σ.model skyboxShader := by
  induction ws generalizing σ with
  | nil => exact ⟨rfl, rfl, rfl⟩
  | cons w ws ih =>
    obtain ⟨h1, h2, h3⟩ := ih
      { σ with model := fun t =>
          if t = windowShader then
            some (glm.scale (glm.translate glm.mat4_identity w) (glm.vec3 3.0))
          else σ.model t }
      hp hv hw
    rw [List.flatMap_cons, (frameEvents_windowDraw w σ _).1, (frameEvents_windowDraw w σ _).2,
      h1, h2, h3]
    refine ⟨?_, rfl, ?_⟩
    · simp [hp, hv, hw]
    · simp

/-- The tail of a frame: the skybox draw when `skyBoxEnabled`, made under `GL_LEQUAL`
with the view matrix stripped of its translation, the overlay when `ImGuiEnabled`, and the
swap; the depth function it leaves is `GL_LESS` after a skybox, unchanged otherwise. -/
theorem frameEvents_frameTail (ext : External F) (st : ProgramState F) (σ : GLState F) :
    frameEvents σ (frameTail ext st) =
        (if st.skyBoxEnabled then
          [FrameEvent.draw (some skyboxShader) (some skyboxVAO) DepthFunc.GL_LEQUAL
            (σ.model skyboxShader)
            (some (glm.mat4_of_mat3 (glm.mat3_of_mat4 (view ext st))))]
          else []) ++
        (if st.ImGuiEnabled then [FrameEvent.overlay] else []) ++ [FrameEvent.swap] ∧
      (glRun σ (frameTail ext st)).depthFunc =
        if st.skyBoxEnabled then DepthFunc.GL_LESS else σ.depthFunc := by
  cases hs : st.skyBoxEnabled <;> cases hi : st.ImGuiEnabled <;>
    simp [frameTail, skyboxPass, overlayPass, hs, hi, frameEvents, glEvent, glStep, glRun]

end BlockLemmas

section FrameClaims

variable {F : Type} [LinearOrderedField F]

open Shader Texture VertexArray Mesh GLCall

/-- The events of a whole frame: those of its head, one draw per window in the sorted
order, then those of its tail; and the depth function it leaves. -/
theorem frameEvents_renderFrame (m : Libm F) (ext : External F) (st : ProgramState F) (t : F)
    (glfwGetTime : Nat → F) (ws : List (Vec3 F)) (σ : GLState F) :
    frameEvents σ (renderFrame m ext st t glfwGetTime ws).2 =
        frameEvents σ (frameHead m ext st t glfwGetTime) ++
        ((sortWindows m st.camera.Position ws).map fun w =>
          FrameEvent.draw (some windowShader) (some windowVAO) σ.depthFunc
            (some (glm.scale (glm.translate glm.mat4_identity w) (glm.vec3 3.0)))
            (some (view ext st))) ++
        ((if st.skyBoxEnabled then
          [FrameEvent.draw (some skyboxShader) (some skyboxVAO) DepthFunc.GL_LEQUAL
            (σ.model skyboxShader)
            (some (glm.mat4_of_mat3 (glm.mat3_of_mat4 (view ext st))))]
          else []) ++
        (if st.ImGuiEnabled then [FrameEvent.overlay] else []) ++ [FrameEvent.swap]) ∧
      (glRun σ (renderFrame m ext st t glfwGetTime ws).2).depthFunc =
        if st.skyBoxEnabled then DepthFunc.GL_LESS else σ.depthFunc := by
  obtain ⟨h1, h2, h3, h4, h5⟩ := glRun_frameHead m ext st t glfwGetTime σ
  obtain ⟨w1, w2, w3⟩ := frameEvents_windows (view ext st)
    (sortWindows m st.camera.Position ws) (glRun σ (frameHead m ext st t glfwGetTime)) h1 h2 h3
  rw [renderFrame_parts, frameEvents_append, frameEvents_append, glRun_append, glRun_append,
    (frameEvents_frameTail ext st _).1, (frameEvents_frameTail ext st _).2, w1, w2, w3, h4, h5]
  exact ⟨by simp only [List.append_assoc], rfl⟩

/-- The calls of a frame drawn without skybox contain no `glDepthFunc`. -/
theorem renderFrame_no_glDepthFunc (m : Libm F) (ext : External F) (st : ProgramState F)
    (t : F) (glfwGetTime : Nat → F) (ws : List (Vec3 F)) (hs : st.skyBoxEnabled = false) :
    (renderFrame m ext st t glfwGetTime ws).2.any isDepthFunc = false := by
  rw [renderFrame_parts, List.any_append, List.any_append, Bool.or_eq_false_iff,
    Bool.or_eq_false_iff]
  refine ⟨?_, any_flatMap_false _ _ _ (fun w => rfl), ?_⟩
  · simp [frameHead, clearPass, dirLightUniforms, pointLightUniforms, spotLightUniforms,
      litSetup, cubePass, meshPass, lightCubePass, targetPass, windowPass, range10, range4,
      range2, isDepthFunc]
  · cases hi : st.ImGuiEnabled <;> simp [frameTail, skyboxPass, overlayPass, hs, hi, isDepthFunc]

/-- C11: if the depth function is `GL_LESS` when a frame starts, it is `GL_LESS` when the
frame ends, with or without skybox, and a draw of that frame is made under `GL_LEQUAL`
exactly when it is the skybox draw; and when `skyBoxEnabled` is false the frame makes no
draw with the skybox shader, calls `glDepthFunc` nowhere and leaves the depth function
as it found it. -/
theorem depthFunc_restored (m : Libm F) (ext : External F) (st : ProgramState F) (t : F)
    (glfwGetTime : Nat → F) (ws : List (Vec3 F)) (σ : GLState F) :
    (σ.depthFunc = DepthFunc.GL_LESS →
        (glRun σ (renderFrame m ext st t glfwGetTime ws).2).depthFunc = DepthFunc.GL_LESS ∧
        (frameEvents σ (renderFrame m ext st t glfwGetTime ws).2).all
          (fun e => decide (e.depth = some DepthFunc.GL_LEQUAL ↔
            e.shader = some skyboxShader)) = true) ∧
      (st.skyBoxEnabled = false →
        (renderFrame m ext st t glfwGetTime ws).2.any isDepthFunc = false ∧
        (frameEvents σ (renderFrame m ext st t glfwGetTime ws).2).any
          (fun e => decide (e.shader = some skyboxShader)) = false ∧
        (glRun σ (renderFrame m ext st t glfwGetTime ws).2).depthFunc = σ.depthFunc) := by
  obtain ⟨he, hd⟩ := frameEvents_renderFrame m ext st t glfwGetTime ws σ
  refine ⟨?_, ?_⟩
  · intro hσ
    refine ⟨?_, ?_⟩
    · rw [hd, hσ]; simp
    · rw [he, frameEvents_frameHead, hσ]
      cases st.skyBoxEnabled <;> cases st.ImGuiEnabled <;>
        simp [range10, range4, range2, FrameEvent.depth, FrameEvent.shader]
  · intro hs
    refine ⟨renderFrame_no_glDepthFunc m ext st t glfwGetTime ws hs, ?_, ?_⟩
    · rw [he, frameEvents_frameHead, hs]
      cases st.ImGuiEnabled <;>
        simp [range10, range4, range2, FrameEvent.shader]
    · rw [hd, hs]; simp

/-- C11 at the state of the first frame after one press of F2 (skybox off), with the
depth function `GL_LESS` and the four windows of the program. -/
theorem depthFunc_restored_witness :
    (glRun (GLState.mk none none DepthFunc.GL_LESS (fun _ => none) (fun _ => none))
        (renderFrame (Libm.mk Real.sqrt Real.cos Real.sin)
          (External.mk (fun mat _ _ => mat) (fun _ _ _ _ => glm.mat4_identity)
            (fun _ => glm.mat4_identity))
          (key_callback (sceneAtStart (Libm.mk Real.sqrt Real.cos Real.sin))
            GLFW_KEY_F2 0 GLFW_PRESS 0)
          0 (fun _ => 0) windowPositions).2).depthFunc = DepthFunc.GL_LESS ∧
      (renderFrame (Libm.mk Real.sqrt Real.cos Real.sin)
          (External.mk (fun mat _ _ => mat) (fun _ _ _ _ => glm.mat4_identity)
            (fun _ => glm.mat4_identity))
          (key_callback (sceneAtStart (Libm.mk Real.sqrt Real.cos Real.sin))
            GLFW_KEY_F2 0 GLFW_PRESS 0)
          0 (fun _ => 0) windowPositions).2.any isDepthFunc = false :=
  ⟨((depthFunc_restored _ _ _ _ _ _ _).1 rfl).1,
   ((depthFunc_restored (Libm.mk Real.sqrt Real.cos Real.sin)
      (External.mk (fun mat _ _ => mat) (fun _ _ _ _ => glm.mat4_identity)
        (fun _ => glm.mat4_identity))
      (key_callback (sceneAtStart (Libm.mk Real.sqrt Real.cos Real.sin))
        GLFW_KEY_F2 0 GLFW_PRESS 0)
      0 (fun _ => 0) windowPositions
      (GLState.mk none none DepthFunc.GL_LESS (fun _ => none) (fun _ => none))).2
      (by simp [key_callback, sceneAtStart, setupLights, ProgramState.initial])).1⟩

/-- C17: for every 4x4 matrix `V`, `mat4(mat3(V))` has the nine entries of the
upper-left 3x3 block of `V` in their places (column `i`, row `j` is `V[i][j]` for
`i, j < 3`), fourth column `(0, 0, 0, 1)` and fourth row `(0, 0, 0, 1)`, so its translation
is zero;
in a frame the skybox is drawn with `mat4(mat3(view))` and every draw before it (the 22
draws of the head and the windows) with the view matrix `view` itself. -/
theorem skybox_view_stripped (m : Libm F) (ext : External F) (st : ProgramState F) (t : F)
    (glfwGetTime : Nat → F) (ws : List (Vec3 F)) (σ : GLState F) (V : Mat4 F) :
    glm.mat4_of_mat3 (glm.mat3_of_mat4 V) =
        ⟨⟨V.c0.x, V.c0.y, V.c0.z, 0⟩, ⟨V.c1.x, V.c1.y, V.c1.z, 0⟩,
         ⟨V.c2.x, V.c2.y, V.c2.z, 0⟩, ⟨0, 0, 0, 1⟩⟩ ∧
      glm.mat3_of_mat4 (glm.mat4_of_mat3 (glm.mat3_of_mat4 V)) = glm.mat3_of_mat4 V ∧
      (glm.mat4_of_mat3 (glm.mat3_of_mat4 V)).c3 = ⟨0, 0, 0, 1⟩ ∧
      (glm.mat4_of_mat3 (glm.mat3_of_mat4 V)).c0.w = 0 ∧
      (glm.mat4_of_mat3 (glm.mat3_of_mat4 V)).c1.w = 0 ∧
      (glm.mat4_of_mat3 (glm.mat3_of_mat4 V)).c2.w = 0 ∧
      (frameEvents σ (renderFrame m ext st t glfwGetTime ws).2).filterMap
          FrameEvent.viewMatrix =
        List.replicate (22 + ws.length) (some (view ext st)) ++
          (if st.skyBoxEnabled then
            [some (glm.mat4_of_mat3 (glm.mat3_of_mat4 (view ext st)))] else []) := by
  refine ⟨rfl, rfl, rfl, rfl, rfl, rfl, ?_⟩
  rw [(frameEvents_renderFrame m ext st t glfwGetTime ws σ).1, frameEvents_frameHead]
  have hl : (sortWindows m st.camera.Position ws).length = ws.length :=
    (std_sort_perm _ _).length_eq
  have hf : ∀ l : List (Vec3 F),
      List.filterMap (fun _ => some (some (view ext st))) l =
        List.replicate l.length (some (view ext st)) := by
    intro l
    induction l with
    | nil => rfl
    | cons a l ih => simp [List.replicate_succ, ih]
  rw [List.replicate_add, ← hl]
  cases st.skyBoxEnabled <;> cases st.ImGuiEnabled <;>
    simp [range10, range4, range2, FrameEvent.viewMatrix, List.replicate, List.filterMap_append,
      List.filterMap_map, Function.comp_def, hf]

end FrameClaims

section KeyMachine

variable {F : Type} [LinearOrderedField F]

/-- The nine tests of `key_callback` exclude one another, so the function is a chain of
alternatives: at most one assignment is made. -/
theorem key_callback_cases (st : ProgramState F) (key scancode action mods : Int) :
    key_callback st key scancode action mods =
      if key = GLFW_KEY_R ∧ action = GLFW_RELEASE then { st with clearColor := ⟨1.0, 0.0, 0.0⟩ }
      else if key = GLFW_KEY_G ∧ action = GLFW_RELEASE then
        { st with clearColor := ⟨0.0, 1.0, 0.0⟩ }
      else if key = GLFW_KEY_B ∧ action = GLFW_RELEASE then
        { st with clearColor := ⟨0.0, 0.0, 1.0⟩ }
      else if key = GLFW_KEY_P ∧ action = GLFW_RELEASE then
        { st with clearColor := ⟨0.1, 0.1, 0.1⟩ }
      else if key = GLFW_KEY_UP ∧ action = GLFW_PRESS then
        { st with materialShininess := st.materialShininess * 2.0 }
      else if key = GLFW_KEY_DOWN ∧ action = GLFW_PRESS then
        { st with materialShininess := st.materialShininess / 2.0 }
      else if key = GLFW_KEY_F1 ∧ action = GLFW_PRESS then
        { st with ImGuiEnabled := !st.ImGuiEnabled }
      else if key = GLFW_KEY_F2 ∧ action = GLFW_PRESS then
        { st with skyBoxEnabled := !st.skyBoxEnabled }
      else if key = GLFW_KEY_SPACE ∧ action = GLFW_PRESS then { st with gamma := !st.gamma }
      else st := by
  by_cases h1 : key = GLFW_KEY_R ∧ action = GLFW_RELEASE
  · obtain ⟨rfl, rfl⟩ := h1; simp [key_callback]
  by_cases h2 : key = GLFW_KEY_G ∧ action = GLFW_RELEASE
  · obtain ⟨rfl, rfl⟩ := h2; simp [key_callback]
  by_cases h3 : key = GLFW_KEY_B ∧ action = GLFW_RELEASE
  · obtain ⟨rfl, rfl⟩ := h3; simp [key_callback]
  by_cases h4 : key = GLFW_KEY_P ∧ action = GLFW_RELEASE
  · obtain ⟨rfl, rfl⟩ := h4; simp [key_callback]
  by_cases h5 : key = GLFW_KEY_UP ∧ action = GLFW_PRESS
  · obtain ⟨rfl, rfl⟩ := h5; simp [key_callback]
  by_cases h6 : key = GLFW_KEY_DOWN ∧ action = GLFW_PRESS
  · obtain ⟨rfl, rfl⟩ := h6; simp [key_callback]
  by_cases h7 : key = GLFW_KEY_F1 ∧ action = GLFW_PRESS
  · obtain ⟨rfl, rfl⟩ := h7; simp [key_callback]
  by_cases h8 : key = GLFW_KEY_F2 ∧ action = GLFW_PRESS
  · obtain ⟨rfl, rfl⟩ := h8; simp [key_callback]
  by_cases h9 : key = GLFW_KEY_SPACE ∧ action = GLFW_PRESS
  · obtain ⟨rfl, rfl⟩ := h9; simp [key_callback]
  simp only [key_callback, if_neg h1, if_neg h2, if_neg h3, if_neg h4, if_neg h5, if_neg h6,
    if_neg h7, if_neg h8, if_neg h9]

end KeyMachine

section ToggleClaims

variable {F : Type} [LinearOrderedField F]

/-- C13: in every state a press of F1 negates `ImGuiEnabled`, a press of F2 negates
`skyBoxEnabled` and a press of SPACE negates `gamma`, and the state after each of these
events is the state before it with that one member replaced: every other member is
unchanged. -/
theorem toggles_independent (st : ProgramState F) (scancode mods : Int) :
    key_callback st GLFW_KEY_F1 scancode GLFW_PRESS mods =
        { st with ImGuiEnabled := !st.ImGuiEnabled } ∧
      key_callback st GLFW_KEY_F2 scancode GLFW_PRESS mods =
        { st with skyBoxEnabled := !st.skyBoxEnabled } ∧
      key_callback st GLFW_KEY_SPACE scancode GLFW_PRESS mods =
        { st with gamma := !st.gamma } := by
  refine ⟨?_, ?_, ?_⟩ <;> simp [key_callback]

/-- C14, as stated, fails: from the state of the first frame one press of F1 leaves
`ImGuiEnabled` true and a second press leaves it false, and one press of UP leaves the
shininess 32 and a second press 64; twice is not once. -/
theorem key_events_idempotent_counterexample :
    (key_callback (sceneAtStart (Libm.mk Real.sqrt Real.cos Real.sin))
        GLFW_KEY_F1 0 GLFW_PRESS 0).ImGuiEnabled = true ∧
      (key_callback
        (key_callback (sceneAtStart (Libm.mk Real.sqrt Real.cos Real.sin))
          GLFW_KEY_F1 0 GLFW_PRESS 0)
        GLFW_KEY_F1 0 GLFW_PRESS 0).ImGuiEnabled = false ∧
      (key_callback (sceneAtStart (Libm.mk Real.sqrt Real.cos Real.sin))
        GLFW_KEY_UP 0 GLFW_PRESS 0).materialShininess = 32 ∧
      (key_callback
        (key_callback (sceneAtStart (Libm.mk Real.sqrt Real.cos Real.sin))
          GLFW_KEY_UP 0 GLFW_PRESS 0)
        GLFW_KEY_UP 0 GLFW_PRESS 0).materialShininess = 64 ∧
      key_callback
        (key_callback (sceneAtStart (Libm.mk Real.sqrt Real.cos Real.sin))
          GLFW_KEY_F1 0 GLFW_PRESS 0)
        GLFW_KEY_F1 0 GLFW_PRESS 0 ≠
      key_callback (sceneAtStart (Libm.mk Real.sqrt Real.cos Real.sin))
        GLFW_KEY_F1 0 GLFW_PRESS 0 := by
  refine ⟨?_, ?_, ?_, ?_, ?_⟩
  · simp [key_callback, sceneAtStart, setupLights, ProgramState.initial]
  · simp [key_callback, sceneAtStart, setupLights, ProgramState.initial]
  · norm_num [key_callback, sceneAtStart, setupLights, ProgramState.initial]
  · norm_num [key_callback, sceneAtStart, setupLights, ProgramState.initial]
  · intro h
    have h1 := congrArg ProgramState.ImGuiEnabled h
    simp [key_callback, sceneAtStart, setupLights, ProgramState.initial] at h1

/-- C14, amended: the four colour events are idempotent (a second release of the same key
changes nothing); the three toggles are involutions (a second press gives back the state
before the first); the shininess scale composes (two presses of UP multiply by 4, two of
DOWN divide by 4). -/
theorem key_events_twice (st : ProgramState F) (scancode1 mods1 scancode2 mods2 : Int) :
    (key_callback (key_callback st GLFW_KEY_R scancode1 GLFW_RELEASE mods1)
        GLFW_KEY_R scancode2 GLFW_RELEASE mods2 =
      key_callback st GLFW_KEY_R scancode1 GLFW_RELEASE mods1) ∧
    (key_callback (key_callback st GLFW_KEY_G scancode1 GLFW_RELEASE mods1)
        GLFW_KEY_G scancode2 GLFW_RELEASE mods2 =
      key_callback st GLFW_KEY_G scancode1 GLFW_RELEASE mods1) ∧
    (key_callback (key_callback st GLFW_KEY_B scancode1 GLFW_RELEASE mods1)
        GLFW_KEY_B scancode2 GLFW_RELEASE mods2 =
      key_callback st GLFW_KEY_B scancode1 GLFW_RELEASE mods1) ∧
    (key_callback (key_callback st GLFW_KEY_P scancode1 GLFW_RELEASE mods1)
        GLFW_KEY_P scancode2 GLFW_RELEASE mods2 =
      key_callback st GLFW_KEY_P scancode1 GLFW_RELEASE mods1) ∧
    (key_callback (key_callback st GLFW_KEY_F1 scancode1 GLFW_PRESS mods1)
        GLFW_KEY_F1 scancode2 GLFW_PRESS mods2 = st) ∧
    (key_callback (key_callback st GLFW_KEY_F2 scancode1 GLFW_PRESS mods1)
        GLFW_KEY_F2 scancode2 GLFW_PRESS mods2 = st) ∧
    (key_callback (key_callback st GLFW_KEY_SPACE scancode1 GLFW_PRESS mods1)
        GLFW_KEY_SPACE scancode2 GLFW_PRESS mods2 = st) ∧
    (key_callback (key_callback st GLFW_KEY_UP scancode1 GLFW_PRESS mods1)
        GLFW_KEY_UP scancode2 GLFW_PRESS mods2 =
      { st with materialShininess := st.materialShininess * 4 }) ∧
    (key_callback (key_callback st GLFW_KEY_DOWN scancode1 GLFW_PRESS mods1)
        GLFW_KEY_DOWN scancode2 GLFW_PRESS mods2 =
      { st with materialShininess := st.materialShininess / 4 }) := by
  refine ⟨?_, ?_, ?_, ?_, ?_, ?_, ?_, ?_, ?_⟩
  · simp [key_callback]
  · simp [key_callback]
  · simp [key_callback]
  · simp [key_callback]
  · simp [key_callback]
  · simp [key_callback]
  · simp [key_callback]
  · simp only [key_callback_cases]
    norm_num
    ring
  · simp only [key_callback_cases]
    norm_num
    ring

/-- C19: an event whose key and action are not one of the nine bound pairs leaves the
whole state as it is, in particular a press of G, a release of UP and a repeat of UP; and
whatever the event, the state after it is the state before it with at most one member
replaced (`clearColor`, `materialShininess`, `ImGuiEnabled`, `skyBoxEnabled` or `gamma`). -/
theorem key_callback_frame (st : ProgramState F) (scancode mods : Int) :
    (∀ key action : Int, boundEvent key action = false →
        key_callback st key scancode action mods = st) ∧
      key_callback st GLFW_KEY_G scancode GLFW_PRESS mods = st ∧
      key_callback st GLFW_KEY_UP scancode GLFW_RELEASE mods = st ∧
      key_callback st GLFW_KEY_UP scancode GLFW_REPEAT mods = st ∧
      ∀ key action : Int,
        (∃ c, key_callback st key scancode action mods = { st with clearColor := c }) ∨
        (∃ x, key_callback st key scancode action mods = { st with materialShininess := x }) ∨
        (∃ b, key_callback st key scancode action mods = { st with ImGuiEnabled := b }) ∨
        (∃ b, key_callback st key scancode action mods = { st with skyBoxEnabled := b }) ∨
        (∃ b, key_callback st key scancode action mods = { st with gamma := b }) := by
  refine ⟨?_, ?_, ?_, ?_, ?_⟩
  · intro key action h
    simp only [boundEvent, Bool.or_eq_false_iff, Bool.and_eq_false_iff,
      decide_eq_false_iff_not] at h
    rw [key_callback_cases]
    obtain ⟨hr, hp⟩ := h
    rw [if_neg, if_neg, if_neg, if_neg, if_neg, if_neg, if_neg, if_neg, if_neg] <;> tauto
  · simp [key_callback]
  · simp [key_callback]
  · simp [key_callback]
  · intro key action
    rw [key_callback_cases]
    by_cases h1 : key = GLFW_KEY_R ∧ action = GLFW_RELEASE
    · rw [if_pos h1]; exact Or.inl ⟨_, rfl⟩
    rw [if_neg h1]
    by_cases h2 : key = GLFW_KEY_G ∧ action = GLFW_RELEASE
    · rw [if_pos h2]; exact Or.inl ⟨_, rfl⟩
    rw [if_neg h2]
    by_cases h3 : key = GLFW_KEY_B ∧ action = GLFW_RELEASE
    · rw [if_pos h3]; exact Or.inl ⟨_, rfl⟩
    rw [if_neg h3]
    by_cases h4 : key = GLFW_KEY_P ∧ action = GLFW_RELEASE
    · rw [if_pos h4]; exact Or.inl ⟨_, rfl⟩
    rw [if_neg h4]
    by_cases h5 : key = GLFW_KEY_UP ∧ action = GLFW_PRESS
    · rw [if_pos h5]; exact Or.inr (Or.inl ⟨_, rfl⟩)
    rw [if_neg h5]
    by_cases h6 : key = GLFW_KEY_DOWN ∧ action = GLFW_PRESS
    · rw [if_pos h6]; exact Or.inr (Or.inl ⟨_, rfl⟩)
    rw [if_neg h6]
    by_cases h7 : key = GLFW_KEY_F1 ∧ action = GLFW_PRESS
    · rw [if_pos h7]; exact Or.inr (Or.inr (Or.inl ⟨_, rfl⟩))
    rw [if_neg h7]
    by_cases h8 : key = GLFW_KEY_F2 ∧ action = GLFW_PRESS
    · rw [if_pos h8]; exact Or.inr (Or.inr (Or.inr (Or.inl ⟨_, rfl⟩)))
    rw [if_neg h8]
    by_cases h9 : key = GLFW_KEY_SPACE ∧ action = GLFW_PRESS
    · rw [if_pos h9]; exact Or.inr (Or.inr (Or.inr (Or.inr ⟨_, rfl⟩)))
    rw [if_neg h9]
    exact Or.inl ⟨st.clearColor, rfl⟩

/-- C19 at the state of the first frame and the event (key 65, press), the key A, which
is not bound. -/
theorem key_callback_frame_witness :
    key_callback (sceneAtStart (Libm.mk Real.sqrt Real.cos Real.sin)) 65 0 GLFW_PRESS 0 =
      sceneAtStart (Libm.mk Real.sqrt Real.cos Real.sin) :=
  (key_callback_frame (sceneAtStart (Libm.mk Real.sqrt Real.cos Real.sin)) 0 0).1
    65 GLFW_PRESS (by decide)

end ToggleClaims

section ComparatorClaims

variable {F : Type} [LinearOrderedField F]

/-- The sort of the windows is `std::sort` with the comparator `windowComparator`. -/
theorem sortWindows_eq (m : Libm F) (cameraPosition : Vec3 F) (ws : List (Vec3 F)) :
    sortWindows m cameraPosition ws = std_sort (windowComparator m cameraPosition) ws :=
  rfl

/-- C18: for every camera position the comparator of the transparency sort (`a` before
`b` exactly when `a` is strictly farther from the camera) is a strict weak ordering: it is
irreflexive, asymmetric and transitive, and incomparability, which is equality of the
distances, is transitive. -/
theorem windowComparator_strict_weak (m : Libm F) (cameraPosition : Vec3 F) :
    (∀ a b, windowComparator m cameraPosition a b = true ↔
        glm.distance m a cameraPosition > glm.distance m b cameraPosition) ∧
      (∀ a, windowComparator m cameraPosition a a = false) ∧
      (∀ a b, windowComparator m cameraPosition a b = true →
        windowComparator m cameraPosition b a = false) ∧
      (∀ a b c, windowComparator m cameraPosition a b = true →
        windowComparator m cameraPosition b c = true →
        windowComparator m cameraPosition a c = true) ∧
      (∀ a b, (windowComparator m cameraPosition a b = false ∧
          windowComparator m cameraPosition b a = false) ↔
        glm.distance m a cameraPosition = glm.distance m b cameraPosition) ∧
      (∀ a b c,
        (windowComparator m cameraPosition a b = false ∧
          windowComparator m cameraPosition b a = false) →
        (windowComparator m cameraPosition b c = false ∧
          windowComparator m cameraPosition c b = false) →
        (windowComparator m cameraPosition a c = false ∧
          windowComparator m cameraPosition c a = false)) := by
  have hiff : ∀ a b, windowComparator m cameraPosition a b = true ↔
      glm.distance m a cameraPosition > glm.distance m b cameraPosition := by
    intro a b
    simp [windowComparator]
  have hf : ∀ a b, windowComparator m cameraPosition a b = false ↔
      glm.distance m a cameraPosition ≤ glm.distance m b cameraPosition := by
    intro a b
    simp [windowComparator]
  have heq : ∀ a b, (windowComparator m cameraPosition a b = false ∧
      windowComparator m cameraPosition b a = false) ↔
      glm.distance m a cameraPosition = glm.distance m b cameraPosition := by
    intro a b
    rw [hf, hf]
    exact ⟨fun h => le_antisymm h.1 h.2, fun h => ⟨le_of_eq h, le_of_eq h.symm⟩⟩
  refine ⟨hiff, ?_, ?_, ?_, heq, ?_⟩
  · intro a
    rw [hf]
  · intro a b h
    rw [hf]
    exact le_of_lt ((hiff a b).mp h)
  · intro a b c h1 h2
    rw [hiff] at *
    exact lt_trans h2 h1
  · intro a b c h1 h2
    rw [heq] at *
    exact h1.trans h2

end ComparatorClaims

section ShininessClaims

set_option maxRecDepth 100000 in
/-- C15, as stated, fails in the arithmetic of the program: `16.0f` halved by 153 presses
of DOWN is `2^-149`, the least positive binary32 number, and the 154th press rounds it to
`0`, which is not positive. -/
theorem shininess_underflow_counterexample :
    (shininessAfter []).positive = true ∧
      shininessAfter (List.replicate 153 ⟨GLFW_KEY_DOWN, 0, GLFW_PRESS, 0⟩) =
        Binary32.finite 1 ∧
      shininessAfter (List.replicate 154 ⟨GLFW_KEY_DOWN, 0, GLFW_PRESS, 0⟩) =
        Binary32.finite 0 ∧
      (shininessAfter (List.replicate 154 ⟨GLFW_KEY_DOWN, 0, GLFW_PRESS, 0⟩)).positive =
        false := by
  refine ⟨?_, ?_, ?_, ?_⟩ <;> rfl

/-- One key event on a shininess that is `+∞` or a power of two `2^j · 2^-149` with
`j` at least the number `k` of presses of DOWN still allowed: the result is of the same
kind, for `k - 1` after a press of DOWN and for `k` after any other event. -/
theorem key_callback_shininess_pow2 (s : Binary32) (key action : Int) (k : Nat)
    (hs : s = Binary32.inf ∨ ∃ j, k ≤ j ∧ s = Binary32.finite (2 ^ j))
    (hk : (if key = GLFW_KEY_DOWN ∧ action = GLFW_PRESS then 1 else 0) ≤ k) :
    key_callback_shininess s key action = Binary32.inf ∨
      ∃ j, k - (if key = GLFW_KEY_DOWN ∧ action = GLFW_PRESS then 1 else 0) ≤ j ∧
        key_callback_shininess s key action = Binary32.finite (2 ^ j) := by
  by_cases hup : key = GLFW_KEY_UP ∧ action = GLFW_PRESS
  · have hdown : ¬(key = GLFW_KEY_DOWN ∧ action = GLFW_PRESS) := by
      rintro ⟨h1, -⟩
      rw [hup.1] at h1
      exact absurd h1 (by decide)
    simp only [key_callback_shininess, if_pos hup, if_neg hdown]
    rcases hs with hs | ⟨j, hj, hs⟩
    · left; rw [hs]; rfl
    · rw [hs]
      simp only [Binary32.mul2]
      split_ifs
      · right
        exact ⟨j + 1, by omega, by rw [pow_succ, Nat.mul_comm]⟩
      · left; rfl
  · by_cases hdown : key = GLFW_KEY_DOWN ∧ action = GLFW_PRESS
    · simp only [key_callback_shininess, if_neg hup, if_pos hdown]
      rw [if_pos hdown] at hk
      rcases hs with hs | ⟨j, hj, hs⟩
      · left; rw [hs]; rfl
      · right
        obtain ⟨i, rfl⟩ : ∃ i, j = i + 1 := ⟨j - 1, by omega⟩
        refine ⟨i, by omega, ?_⟩
        rw [hs]
        have hmod : 2 ^ (i + 1) % 2 = 0 := by rw [pow_succ]; exact Nat.mul_mod_left _ _
        have hdiv : 2 ^ (i + 1) / 2 = 2 ^ i := by
          rw [pow_succ]; exact Nat.mul_div_cancel _ (by decide)
        simp only [Binary32.div2, hmod, if_true, hdiv]
    · simp only [key_callback_shininess, if_neg hup, if_neg hdown]
      rcases hs with hs | ⟨j, hj, hs⟩
      · left; exact hs
      · right; exact ⟨j, by omega, hs⟩

/-- A sequence of key events with at most `k` presses of DOWN, run from `+∞` or from a
power of two `2^j · 2^-149` with `j ≥ k`, ends on a strictly positive value. -/
theorem foldl_key_callback_shininess_positive (events : List KeyEvent) (k : Nat)
    (s : Binary32) (hs : s = Binary32.inf ∨ ∃ j, k ≤ j ∧ s = Binary32.finite (2 ^ j))
    (hk : downPresses events ≤ k) :
    (events.foldl (fun s e => key_callback_shininess s e.key e.action) s).positive = true := by
  induction events generalizing k s with
  | nil =>
    rcases hs with hs | ⟨j, -, hs⟩
    · rw [hs]; rfl
    · rw [hs]
      simp only [List.foldl_nil, Binary32.positive, decide_eq_true_eq]
      exact Nat.pos_pow_of_pos j (by decide)
  | cons e events ih =>
    rw [List.foldl_cons]
    have hcount : downPresses (e :: events) =
        downPresses events +
          (if e.key = GLFW_KEY_DOWN ∧ e.action = GLFW_PRESS then 1 else 0) := by
      simp only [downPresses, List.countP_cons, decide_eq_true_eq]
    rw [hcount] at hk
    exact ih _ _ (key_callback_shininess_pow2 s e.key e.action k hs (by omega)) (by omega)

/-- C15, amended: in the binary32 arithmetic of the program `materialShininess` is
positive in the initial state (`16.0`) and strictly positive after every finite sequence
of key events applied from the initial state that holds at most 153 presses of DOWN. -/
theorem shininess_positive_binary32 (events : List KeyEvent)
    (h : downPresses events ≤ 153) :
    shininessAfter [] = Binary32.sixteen ∧ Binary32.sixteen.positive = true ∧
      (shininessAfter events).positive = true :=
  ⟨rfl, rfl,
   foldl_key_callback_shininess_positive events 153 Binary32.sixteen
     (Or.inr ⟨153, Nat.le_refl _, rfl⟩) h⟩

/-- C15, amended, at the events UP press, DOWN press, DOWN press, G release, DOWN
repeat, DOWN press: three presses of DOWN, and the shininess ends on `4.0`. -/
theorem shininess_positive_binary32_witness :
    (shininessAfter
        [⟨GLFW_KEY_UP, 0, GLFW_PRESS, 0⟩, ⟨GLFW_KEY_DOWN, 0, GLFW_PRESS, 0⟩,
         ⟨GLFW_KEY_DOWN, 0, GLFW_PRESS, 0⟩, ⟨GLFW_KEY_G, 0, GLFW_RELEASE, 0⟩,
         ⟨GLFW_KEY_DOWN, 0, GLFW_REPEAT, 0⟩, ⟨GLFW_KEY_DOWN, 0, GLFW_PRESS, 0⟩]).positive =
      true :=
  (shininess_positive_binary32
    [⟨GLFW_KEY_UP, 0, GLFW_PRESS, 0⟩, ⟨GLFW_KEY_DOWN, 0, GLFW_PRESS, 0⟩,
     ⟨GLFW_KEY_DOWN, 0, GLFW_PRESS, 0⟩, ⟨GLFW_KEY_G, 0, GLFW_RELEASE, 0⟩,
     ⟨GLFW_KEY_DOWN, 0, GLFW_REPEAT, 0⟩, ⟨GLFW_KEY_DOWN, 0, GLFW_PRESS, 0⟩]
    (by decide)).2.2

end ShininessClaims

/-! ## Stability -/

section Stability

variable {α β : Type} [LinearOrder β]

theorem unguarded_linear_insert_filter (key : α → β) (comp : α → α → Bool)
    (hc : ∀ a b, comp a b = true ↔ key b < key a) (d : β) (val : α) (l : List α) :
    (unguarded_linear_insert comp val l).filter (fun a => decide (key a = d)) =
      [val].filter (fun a => decide (key a = d)) ++ l.filter (fun a => decide (key a = d)) := by
  induction l with
  | nil => simp [unguarded_linear_insert]
  | cons next rest ih =>
    unfold unguarded_linear_insert
    split
    · rename_i h
      have hlt : key next < key val := (hc _ _).mp h
      rw [List.filter_cons, ih]
      by_cases hn : key next = d
      · have hv : key val ≠ d := fun e => by rw [hn, e] at hlt; exact lt_irrefl _ hlt
        simp [hn, hv]
      · simp [hn]
    · by_cases hv : key val = d <;> simp [List.filter_cons, hv]

theorem insertion_step_filter (key : α → β) (comp : α → α → Bool)
    (hc : ∀ a b, comp a b = true ↔ key b < key a) (d : β) (done : List α) (val : α)
    (hd : done.Pairwise (fun a b => key a ≥ key b)) :
    (insertion_step comp done val).filter (fun a => decide (key a = d)) =
      done.filter (fun a => decide (key a = d)) ++
        [val].filter (fun a => decide (key a = d)) := by
  unfold insertion_step
  split
  · simp
  · rename_i first tl
    split
    · rename_i h
      have h1 : key first < key val := (hc _ _).mp h
      have hall : ∀ b ∈ first :: tl, key b < key val := by
        intro b hb
        rcases List.mem_cons.mp hb with hb | hb
        · rw [hb]; exact h1
        · exact lt_of_le_of_lt ((List.pairwise_cons.mp hd).1 b hb) h1
      by_cases hv : key val = d
      · have hnil : (first :: tl).filter (fun a => decide (key a = d)) = [] := by
          rw [List.filter_eq_nil_iff]
          intro b hb
          have := hall b hb
          simp only [decide_eq_true_eq]
          intro e
          rw [e, hv] at this
          exact lt_irrefl _ this
        rw [List.filter_cons, hnil]
        simp [hv]
      · rw [List.filter_cons]
        simp [hv]
    · rw [List.filter_reverse, unguarded_linear_insert_filter key comp hc, List.reverse_append,
        List.filter_reverse, List.reverse_reverse]
      cases h : decide (key val = d) <;> simp [List.filter_cons, h]

theorem foldl_insertion_step_filter (key : α → β) (comp : α → α → Bool)
    (hc : ∀ a b, comp a b = true ↔ key b < key a) (d : β) (rest done : List α)
    (hd : done.Pairwise (fun a b => key a ≥ key b)) :
    (rest.foldl (insertion_step comp) done).filter (fun a => decide (key a = d)) =
      done.filter (fun a => decide (key a = d)) ++
        rest.filter (fun a => decide (key a = d)) := by
  induction rest generalizing done with
  | nil => simp
  | cons val rest ih =>
    rw [List.foldl_cons, ih _ (insertion_step_descending key comp hc done val hd),
      insertion_step_filter key comp hc d done val hd, List.append_assoc]
    congr 1
    cases h : decide (key val = d) <;> simp [List.filter_cons, h]

/-- The insertion sort keeps the input order of the elements that share a key. -/
theorem std_sort_stable (key : α → β) (comp : α → α → Bool)
    (hc : ∀ a b, comp a b = true ↔ key b < key a) (l : List α) :
    StableFor key l (std_sort comp l) := by
  intro d
  cases l with
  | nil => rfl
  | cons first rest =>
    simp only [std_sort]
    rw [foldl_insertion_step_filter key comp hc d rest [first] (List.pairwise_singleton _ _)]
    cases h : decide (key first = d) <;> simp [List.filter_cons, h]

/-- On at most 16 elements the GNU routine is the insertion sort. -/
theorem std_sort_gnu_short (partial_sort : List α → List α) (comp : α → α → Bool)
    (l : List α) (h : l.length ≤ 16) : std_sort_gnu partial_sort comp l = std_sort comp l := by
  cases l with
  | nil => rfl
  | cons a l =>
    have hloop : ∀ depth, introsort_loop partial_sort comp depth (a :: l) 0 (a :: l).length =
        a :: l := by
      intro depth
      cases depth <;> simp only [introsort_loop] <;> rw [if_neg] <;> simp <;> simpa using h
    simp only [std_sort_gnu]
    rw [hloop, final_insertion_sort, if_neg (by simpa using h)]

/-- The GNU routine leaves every list non-increasing in the key, whatever its length and
whatever the heap sort fallback does. -/
theorem std_sort_gnu_descending (key : α → β) (partial_sort : List α → List α)
    (comp : α → α → Bool) (hc : ∀ a b, comp a b = true ↔ key b < key a) (l : List α) :
    (std_sort_gnu partial_sort comp l).Pairwise (fun a b => key a ≥ key b) := by
  have hfin : ∀ l : List α,
      (final_insertion_sort comp l).Pairwise (fun a b => key a ≥ key b) := by
    intro l
    unfold final_insertion_sort
    split_ifs
    · have hgen : ∀ (rest done : List α), done.Pairwise (fun a b => key a ≥ key b) →
          (rest.foldl
            (fun done val => (unguarded_linear_insert comp val done.reverse).reverse)
            done).Pairwise (fun a b => key a ≥ key b) := by
        intro rest
        induction rest with
        | nil => intro done hd; exact hd
        | cons val rest ih =>
          intro done hd
          rw [List.foldl_cons]
          apply ih
          rw [List.pairwise_reverse]
          refine (unguarded_linear_insert_ascending key comp hc val _ ?_).imp (fun h => h)
          rw [List.pairwise_reverse]
          exact hd.imp (fun h => h)
      exact hgen _ _ (std_sort_descending key comp hc _)
    · exact std_sort_descending key comp hc l
  cases l with
  | nil => simp [std_sort_gnu]
  | cons a l => exact hfin _

end Stability

/-! ## The GNU routine permutes its input -/

section GnuPerm

variable {α : Type}

theorem iter_swap_perm (l : List α) (i j : Nat) : (iter_swap l i j).Perm l := by
  classical
  unfold iter_swap
  cases hi : l[i]? with
  | none => exact List.Perm.refl _
  | some x =>
    cases hj : l[j]? with
    | none => exact List.Perm.refl _
    | some y =>
      simp only []
      obtain ⟨hil, hix⟩ := List.getElem?_eq_some_iff.mp hi
      obtain ⟨hjl, hjy⟩ := List.getElem?_eq_some_iff.mp hj
      rw [List.perm_iff_count]
      intro b
      have hjl1 : j < (l.set i y).length := by simpa using hjl
      rw [List.count_set _ _ _ _ hjl1, List.count_set _ _ _ _ hil, List.getElem_set]
      have hx : (if x == b then 1 else 0) ≤ l.count b := by
        split
        · rename_i h
          have hb : x = b := by simpa using h
          have hm : b ∈ l := hb ▸ hix ▸ List.getElem_mem hil
          exact List.count_pos_iff.mpr hm
        · exact Nat.zero_le _
      rw [hix]
      by_cases hij : i = j
      · subst hij
        have hxy : x = y := by rw [← hix, ← hjy]
        subst hxy
        simp only [if_true]
        omega
      · rw [if_neg hij, hjy]
        omega

theorem move_median_to_first_perm (comp : α → α → Bool) (l : List α) (result a b c : Nat) :
    (move_median_to_first comp l result a b c).Perm l := by
  unfold move_median_to_first
  split
  · split_ifs <;> exact iter_swap_perm _ _ _
  · exact List.Perm.refl _

theorem unguarded_partition_perm (comp : α → α → Bool) (pivot : α) (fuel : Nat) (l : List α)
    (first last : Nat) : (unguarded_partition comp pivot fuel l first last).1.Perm l := by
  induction fuel generalizing l first last with
  | zero => exact List.Perm.refl _
  | succ fuel ih =>
    unfold unguarded_partition
    simp only []
    split_ifs
    · exact (ih _ _ _).trans (iter_swap_perm _ _ _)
    · exact List.Perm.refl _

theorem unguarded_partition_pivot_perm (comp : α → α → Bool) (l : List α) (first last : Nat) :
    (unguarded_partition_pivot comp l first last).1.Perm l := by
  unfold unguarded_partition_pivot
  simp only []
  split
  · exact (unguarded_partition_perm _ _ _ _ _ _).trans (move_median_to_first_perm _ _ _ _ _ _)
  · exact move_median_to_first_perm _ _ _ _ _ _

theorem introsort_loop_perm (partial_sort : List α → List α)
    (hps : ∀ l, (partial_sort l).Perm l) (comp : α → α → Bool) (depth : Nat) (l : List α)
    (first last : Nat) : (introsort_loop partial_sort comp depth l first last).Perm l := by
  induction depth generalizing l first last with
  | zero =>
    unfold introsort_loop
    split_ifs with h
    · have e : l.take first ++ (l.drop first).take (last - first) ++ l.drop last = l := by
        have h1 : l.drop last = (l.drop first).drop (last - first) := by
          rw [List.drop_drop]
          congr 1
          omega
        rw [h1, List.append_assoc, List.take_append_drop, List.take_append_drop]
      exact (((hps _).append_left _).append_right _).trans (List.Perm.of_eq e)
    · exact List.Perm.refl _
  | succ depth ih =>
    unfold introsort_loop
    split_ifs
    · exact ((ih _ _ _).trans (ih _ _ _)).trans (unguarded_partition_pivot_perm _ _ _ _)
    · exact List.Perm.refl _

theorem final_insertion_sort_perm (comp : α → α → Bool) (l : List α) :
    (final_insertion_sort comp l).Perm l := by
  unfold final_insertion_sort
  split_ifs
  · have hgen : ∀ (rest done : List α),
        (rest.foldl
          (fun done val => (unguarded_linear_insert comp val done.reverse).reverse)
          done).Perm (done ++ rest) := by
      intro rest
      induction rest with
      | nil => intro done; simp
      | cons val rest ih =>
        intro done
        rw [List.foldl_cons]
        refine (ih _).trans ?_
        have h1 : ((unguarded_linear_insert comp val done.reverse).reverse).Perm (val :: done) :=
          (List.reverse_perm _).trans
            ((unguarded_linear_insert_perm comp val _).trans ((List.reverse_perm _).cons val))
        refine (h1.append_right rest).trans ?_
        simpa using (@List.perm_middle _ val done rest).symm
    refine (hgen _ _).trans ?_
    refine ((std_sort_perm comp _).append_right _).trans ?_
    rw [List.take_append_drop]
  · exact std_sort_perm comp l

/-- The GNU routine returns a permutation of its input whenever its heap sort fallback
does. -/
theorem std_sort_gnu_perm (partial_sort : List α → List α)
    (hps : ∀ l, (partial_sort l).Perm l) (comp : α → α → Bool) (l : List α) :
    (std_sort_gnu partial_sort comp l).Perm l := by
  cases l with
  | nil => exact List.Perm.refl _
  | cons a l =>
    simp only [std_sort_gnu]
    exact (final_insertion_sort_perm comp _).trans
      (introsort_loop_perm partial_sort hps comp _ _ _ _)

/-- The sort of the windows by the whole GNU routine, on a vector of any length, leaves it
non-increasing in distance to the camera, and a permutation of what it was when the heap
sort fallback permutes. -/
theorem sortWindowsGnu_sorted_perm {F : Type} [LinearOrderedField F]
    (partial_sort : List (Vec3 F) → List (Vec3 F)) (m : Libm F) (cameraPosition : Vec3 F)
    (ws : List (Vec3 F)) :
    (sortWindowsGnu partial_sort m cameraPosition ws).Pairwise
        (fun a b => glm.distance m a cameraPosition ≥ glm.distance m b cameraPosition) ∧
      ((∀ l, (partial_sort l).Perm l) →
        (sortWindowsGnu partial_sort m cameraPosition ws).Perm ws) :=
  ⟨std_sort_gnu_descending (fun a => glm.distance m a cameraPosition) partial_sort _
      (sortWindows_comp_iff m cameraPosition) ws,
   fun hps => std_sort_gnu_perm partial_sort hps _ ws⟩

end GnuPerm

section StabilityClaims

variable {F : Type} [LinearOrderedField F]

/-- On a list of at most 16 windows the whole GNU routine is the insertion sort of
`sortWindows`, and it keeps the input order of the windows at any one distance. -/
theorem sort_stable_short (partial_sort : List (Vec3 F) → List (Vec3 F)) (m : Libm F)
    (cameraPosition : Vec3 F) (ws : List (Vec3 F)) (h : ws.length ≤ 16) :
    sortWindowsGnu partial_sort m cameraPosition ws = sortWindows m cameraPosition ws ∧
      StableFor (fun w => glm.distance m w cameraPosition) ws
        (sortWindowsGnu partial_sort m cameraPosition ws) := by
  have e : sortWindowsGnu partial_sort m cameraPosition ws = sortWindows m cameraPosition ws :=
    std_sort_gnu_short partial_sort _ ws h
  refine ⟨e, ?_⟩
  rw [e]
  exact std_sort_stable (fun w => glm.distance m w cameraPosition) _
    (sortWindows_comp_iff m cameraPosition) ws

end StabilityClaims
